import Mathlib

/-!
# Stager: task specification builder and completion dispatcher

A shallow embedding of `stager/stager.go` (the `Stage` builder) and
`outbox/outbox.go` (the completion dispatcher) together with the properties
claimed for them.

Conventions of the embedding:

* Go `string` values are Lean `String`s, Go `int`/`int64` values are `Int`s
  (saturation of `time.Duration` is explicit, see `timeSub`).
* A Go `error` is a `GoError` carrying its message; `nil` is `none`.
* The collaborators (`bbs.StagerBBS`, `api_client.ApiClient`,
  `timeprovider.TimeProvider`) are interfaces in the source. They are embedded
  as records of transition functions over an arbitrary world state `σ`.
* Every call made on a collaborator, every metric emitted and every log line is
  appended to a list of `Effect`s, so that "is never called" and "is called
  exactly once" are statements about that list.
* Library constants and helpers that live outside this repository (the
  smelting configuration, the file server route table, `urljoiner.Join`, the
  task domain constants, `json.Marshal`) are parameters of the embedding.
-/

namespace Stager

/-! ## Errors -/

/-- A Go `error` value, identified by its message. -/
structure GoError where
  msg : String
deriving DecidableEq, Repr

/-- The function `errors.New`. -/
def errorsNew (msg : String) : GoError := ⟨msg⟩

def ErrNoFileServerPresent : GoError := errorsNew "no available file server present"
def ErrMissingAppId : GoError := errorsNew "missing app id"
def ErrNoCompilerDefined : GoError := errorsNew "no compiler defined for requested stack"

/-! ## Data model of the builder -/

/-- The type `models.Buildpack`, restricted to the fields `Stage` reads. -/
structure Buildpack where
  Key : String
  Url : String
deriving DecidableEq, Repr

/-- The type `models.StagingRequestFromCC`. -/
structure StagingRequestFromCC where
  AppId : String
  TaskId : String
  Stack : String
  AppBitsDownloadUri : String
  FileDescriptors : Int
  MemoryMB : Int
  DiskMB : Int
  Buildpacks : List Buildpack
  Environment : List (String × String)
deriving DecidableEq, Repr

/-- The type `models.ExecutorAction`: a tagged action of the task. -/
inductive ExecutorAction where
  | DownloadAction (From To : String) (Extract : Bool)
  | RunAction (Script : String) (Env : List (String × String)) (Timeout : Int)
  | UploadAction (From To : String)
  | FetchResultAction (File : String)
deriving DecidableEq, Repr

/-- The type `models.LogConfig`. -/
structure LogConfig where
  Guid : String
  SourceName : String
deriving DecidableEq, Repr

/-- The type `models.RunOnce`: the task envelope handed to the coordinator. -/
structure RunOnce where
  Guid : String
  Stack : String
  ReplyTo : String
  FileDescriptors : Int
  MemoryMB : Int
  DiskMB : Int
  Actions : List ExecutorAction
  Log : LogConfig
deriving DecidableEq, Repr

/-- The value returned by `models.NewLinuxSmeltingConfig`, through its accessor methods. -/
structure LinuxSmeltingConfig where
  CompilerPath : String
  AppDir : String
  BuildpackPath : String → String
  Script : String
  DropletArchivePath : String
  ResultJsonPath : String

/-- The type `router.Route`. -/
structure Route where
  Handler : String
  Method : String
  Path : String
deriving DecidableEq, Repr

/-- Library code used by `Stage` that is not part of this repository. -/
structure StagerEnv where
  /-- The constructor `models.NewLinuxSmeltingConfig`. -/
  NewLinuxSmeltingConfig : List String → LinuxSmeltingConfig
  /-- The handler name `router.FS_STATIC`. -/
  FS_STATIC : String
  /-- The handler name `router.FS_UPLOAD_DROPLET`. -/
  FS_UPLOAD_DROPLET : String
  /-- The lookup `router.NewFileServerRoutes().RouteForHandler`. -/
  RouteForHandler : String → Option Route
  /-- The method `Route.PathWithParams`. -/
  PathWithParams : Route → List (String × String) → Except GoError String
  /-- The function `urljoiner.Join`. -/
  urljoinerJoin : String → List String → String

/-- Nanoseconds in `time.Minute`. -/
def timeMinute : Int := 60 * 1000000000

/-- The function `strings.Join` of the Go standard library. -/
def stringsJoin : List String → String → String
  | [], _ => ""
  | [a], _ => a
  | a :: b :: rest, sep => a ++ sep ++ stringsJoin (b :: rest) sep

/-- The function `fmt.Errorf` for the one format `Stage` uses, `prefix%s` applied to an error. -/
def fmtErrorf (pre : String) (err : GoError) : GoError := ⟨pre ++ err.msg⟩

/-! ## Collaborators and effects -/

/-- The bytes handed to the control-plane client: the marshalled JSON text. -/
abbrev Payload := String

/-- Log levels of `lager.Logger` used by the dispatcher. -/
inductive LogLevel where
  | info
  | error
deriving DecidableEq, Repr

/-- One observable effect of running the code: a call on a collaborator with its outcome,
a metric emission, or a log line. -/
inductive Effect where
  | getAvailableFileServer (result : Except GoError String)
  | desireRunOnce (task : RunOnce) (err : Option GoError)
  | counterIncrement (name : String)
  | durationSend (name : String) (nanoseconds : Int)
  | resolvingTask (guid : String) (err : Option GoError)
  | resolveTask (guid : String) (err : Option GoError)
  | stagingComplete (payload : Payload) (err : Option GoError)
  | log (level : LogLevel) (action : String)

/-- The interface `bbs.StagerBBS`, as transition functions over the world state. -/
structure StagerBBS (σ : Type) where
  GetAvailableFileServer : σ → Except GoError String × σ
  DesireRunOnce : RunOnce → σ → Option GoError × σ
  ResolvingTask : String → σ → Option GoError × σ
  ResolveTask : String → σ → Option GoError × σ

/-- The result of running a procedure: its returned error, the world afterwards and the
effects it performed, oldest first. -/
structure Outcome (σ : Type) where
  err : Option GoError
  world : σ
  effects : List Effect

/-! ## `stager.go` -/

/-- The method `stager.compilerDownloadURL`. The compiler table `stager.compilers` is a Go map,
embedded as an association list read with `List.lookup`. -/
def compilerDownloadURL (env : StagerEnv) (compilers : List (String × String))
    (request : StagingRequestFromCC) (fileServerURL : String) : Except GoError String :=
  match compilers.lookup request.Stack with
  | none => .error ErrNoCompilerDefined
  | some compilerPath =>
    match env.RouteForHandler env.FS_STATIC with
    | none => .error (errorsNew "couldn't generate the compiler download path")
    | some staticRoute => .ok (env.urljoinerJoin fileServerURL [staticRoute.Path, compilerPath])

/-- The method `stager.dropletUploadURL`. -/
def dropletUploadURL (env : StagerEnv) (request : StagingRequestFromCC)
    (fileServerURL : String) : Except GoError String :=
  match env.RouteForHandler env.FS_UPLOAD_DROPLET with
  | none => .error (errorsNew "couldn't generate the compiler download path")
  | some staticRoute =>
    match env.PathWithParams staticRoute [("guid", request.AppId)] with
    | .error err => .error (fmtErrorf "failed to build droplet upload URL: " err)
    | .ok path => .ok (env.urljoinerJoin fileServerURL [path])

/-- The loop `for _, buildpack := range request.Buildpacks` that collects the keys. -/
def buildpacksOrder (request : StagingRequestFromCC) : List String :=
  request.Buildpacks.foldl (fun order buildpack => order ++ [buildpack.Key]) []

/-- The loop `for _, buildpack := range request.Buildpacks` that appends one download per
buildpack to the actions built so far. -/
def appendBuildpackDownloads (smeltingConfig : LinuxSmeltingConfig)
    (actions : List ExecutorAction) (buildpacks : List Buildpack) : List ExecutorAction :=
  buildpacks.foldl
    (fun actions buildpack =>
      actions ++ [ExecutorAction.DownloadAction buildpack.Url
        (smeltingConfig.BuildpackPath buildpack.Key) true])
    actions

/-- The method `stager.Stage`. -/
def Stage {σ : Type} (env : StagerEnv) (stagerBBS : StagerBBS σ)
    (compilers : List (String × String)) (request : StagingRequestFromCC) (replyTo : String)
    (world : σ) : Outcome σ :=
  if request.AppId.utf8ByteSize = 0 then
    ⟨some ErrMissingAppId, world, []⟩
  else
    match stagerBBS.GetAvailableFileServer world with
    | (.error e, world) => ⟨some ErrNoFileServerPresent, world, [.getAvailableFileServer (.error e)]⟩
    | (.ok fileServerURL, world) =>
      let called := [Effect.getAvailableFileServer (.ok fileServerURL)]
      match compilerDownloadURL env compilers request fileServerURL with
      | .error err => ⟨some err, world, called⟩
      | .ok compilerURL =>
        let smeltingConfig := env.NewLinuxSmeltingConfig (buildpacksOrder request)
        let actions : List ExecutorAction := []
        let actions := actions ++
          [.DownloadAction compilerURL smeltingConfig.CompilerPath true]
        let actions := actions ++
          [.DownloadAction request.AppBitsDownloadUri smeltingConfig.AppDir true]
        let actions := appendBuildpackDownloads smeltingConfig actions request.Buildpacks
        let actions := actions ++
          [.RunAction smeltingConfig.Script request.Environment (15 * timeMinute)]
        match dropletUploadURL env request fileServerURL with
        | .error err => ⟨some err, world, called⟩
        | .ok uploadURL =>
          let actions := actions ++
            [.UploadAction smeltingConfig.DropletArchivePath uploadURL]
          let actions := actions ++
            [.FetchResultAction smeltingConfig.ResultJsonPath]
          let task : RunOnce :=
            { Guid := stringsJoin [request.AppId, request.TaskId] "-"
              Stack := request.Stack
              ReplyTo := replyTo
              FileDescriptors := request.FileDescriptors
              MemoryMB := request.MemoryMB
              DiskMB := request.DiskMB
              Actions := actions
              Log := { Guid := request.AppId, SourceName := "STG" } }
          match stagerBBS.DesireRunOnce task world with
          | (err, world) => ⟨err, world, called ++ [.desireRunOnce task err]⟩

/-- The tasks submitted to the coordinator: the arguments of the `DesireRunOnce` calls among
the effects, in call order. -/
def submittedTasks : List Effect → List RunOnce
  | [] => []
  | .desireRunOnce task _ :: rest => task :: submittedTasks rest
  | _ :: rest => submittedTasks rest

/-! ## `encoding/json` decoding -/

/-- A parsed JSON text. Numbers keep their literal, which no decoder here reads. -/
inductive JSON where
  | null
  | bool (b : Bool)
  | number (literal : List Char)
  | string (s : String)
  | array (items : List JSON)
  | object (members : List (String × JSON))

/-- Whether the scanner treats the character as insignificant space. -/
def isSpace (c : Char) : Bool :=
  c = ' ' || c = '\t' || c = '\r' || c = '\n'

def skipSpace : List Char → List Char
  | [] => []
  | c :: rest => if isSpace c then skipSpace rest else c :: rest

def hexValue (c : Char) : Option Nat :=
  if '0' ≤ c ∧ c ≤ '9' then some (c.toNat - '0'.toNat)
  else if 'a' ≤ c ∧ c ≤ 'f' then some (c.toNat - 'a'.toNat + 10)
  else if 'A' ≤ c ∧ c ≤ 'F' then some (c.toNat - 'A'.toNat + 10)
  else none

/-- Four hexadecimal digits, as the code unit they denote. -/
def hex4 : List Char → Option (Nat × List Char)
  | a :: b :: c :: d :: rest =>
    match hexValue a, hexValue b, hexValue c, hexValue d with
    | some a, some b, some c, some d => some (((a * 16 + b) * 16 + c) * 16 + d, rest)
    | _, _, _, _ => none
  | _ => none

/-- The helper `getu4`: the code unit of a leading `\uXXXX` escape. -/
def getu4 : List Char → Option (Nat × List Char)
  | '\\' :: 'u' :: rest => hex4 rest
  | _ => none

def replacementChar : Char := Char.ofNat 0xFFFD

/-- The function `utf16.DecodeRune`. -/
def utf16DecodeRune (r1 r2 : Nat) : Char :=
  if 0xd800 ≤ r1 ∧ r1 < 0xdc00 ∧ 0xdc00 ≤ r2 ∧ r2 < 0xe000 then
    Char.ofNat ((r1 - 0xd800) * 1024 + (r2 - 0xdc00) + 0x10000)
  else replacementChar

def simpleEscape (c : Char) : Option Char :=
  if c = '"' then some '"'
  else if c = '\\' then some '\\'
  else if c = '/' then some '/'
  else if c = 'b' then some (Char.ofNat 8)
  else if c = 'f' then some (Char.ofNat 12)
  else if c = 'n' then some '\n'
  else if c = 'r' then some '\r'
  else if c = 't' then some '\t'
  else none

/-- The characters of a string literal after its opening quote, unquoted, and the input
after its closing quote. -/
def parseStringBody : Nat → List Char → Option (List Char × List Char)
  | 0, _ => none
  | _ + 1, [] => none
  | fuel + 1, c :: rest =>
    if c = '"' then some ([], rest)
    else if c = '\\' then
      match rest with
      | [] => none
      | e :: rest =>
        if e = 'u' then
          match hex4 rest with
          | none => none
          | some (rr, rest) =>
            if 0xd800 ≤ rr ∧ rr < 0xe000 then
              match getu4 rest with
              | some (rr1, rest1) =>
                if utf16DecodeRune rr rr1 ≠ replacementChar then
                  (parseStringBody fuel rest1).map
                    (fun r => (utf16DecodeRune rr rr1 :: r.1, r.2))
                else
                  (parseStringBody fuel rest).map (fun r => (replacementChar :: r.1, r.2))
              | none =>
                (parseStringBody fuel rest).map (fun r => (replacementChar :: r.1, r.2))
            else
              (parseStringBody fuel rest).map (fun r => (Char.ofNat rr :: r.1, r.2))
        else
          match simpleEscape e with
          | none => none
          | some ch => (parseStringBody fuel rest).map (fun r => (ch :: r.1, r.2))
    else if c.toNat < 0x20 then none
    else (parseStringBody fuel rest).map (fun r => (c :: r.1, r.2))

def takeDigits : List Char → List Char × List Char
  | [] => ([], [])
  | c :: rest =>
    if c.isDigit then ((takeDigits rest).1.cons c, (takeDigits rest).2) else ([], c :: rest)

/-- The exponent part of a number, if present. -/
def parseExponent (input : List Char) : Option (List Char × List Char) :=
  match input with
  | e :: rest =>
    if e = 'e' ∨ e = 'E' then
      match rest with
      | s :: rest1 =>
        if s = '+' ∨ s = '-' then
          match takeDigits rest1 with
          | ([], _) => none
          | (ds, rest2) => some (e :: s :: ds, rest2)
        else
          match takeDigits rest with
          | ([], _) => none
          | (ds, rest2) => some (e :: ds, rest2)
      | [] => none
    else some ([], input)
  | [] => some ([], input)

/-- The fraction part of a number, if present. -/
def parseFraction (input : List Char) : Option (List Char × List Char) :=
  match input with
  | '.' :: rest =>
    match takeDigits rest with
    | ([], _) => none
    | (ds, rest1) => some ('.' :: ds, rest1)
  | _ => some ([], input)

/-- The integer part of a number: a single `0`, or a non-zero digit and more digits. -/
def parseIntegerPart (input : List Char) : Option (List Char × List Char) :=
  match input with
  | c :: rest =>
    if c = '0' then some (['0'], rest)
    else if c.isDigit then some (c :: (takeDigits rest).1, (takeDigits rest).2)
    else none
  | [] => none

def parseUnsigned (input : List Char) : Option (List Char × List Char) :=
  match parseIntegerPart input with
  | none => none
  | some (i, rest) =>
    match parseFraction rest with
    | none => none
    | some (f, rest) =>
      match parseExponent rest with
      | none => none
      | some (e, rest) => some (i ++ f ++ e, rest)

def parseNumber (input : List Char) : Option (List Char × List Char) :=
  match input with
  | '-' :: rest => (parseUnsigned rest).map (fun r => ('-' :: r.1, r.2))
  | _ => parseUnsigned input

/-- The rest of the input after the given literal name, when the input starts with it. -/
def dropLiteral : List Char → List Char → Option (List Char)
  | [], input => some input
  | _ :: _, [] => none
  | l :: name, c :: rest => if l = c then dropLiteral name rest else none

mutual
/-- One JSON value, after leading space, and the input that follows it. -/
def parseValue : Nat → List Char → Option (JSON × List Char)
  | 0, _ => none
  | fuel + 1, input =>
    match skipSpace input with
    | [] => none
    | c :: rest =>
      if c = '{' then
        match skipSpace rest with
        | '}' :: rest => some (.object [], rest)
        | _ => (parseMembers fuel rest).map (fun r => (.object r.1, r.2))
      else if c = '[' then
        match skipSpace rest with
        | ']' :: rest => some (.array [], rest)
        | _ => (parseElements fuel rest).map (fun r => (.array r.1, r.2))
      else if c = '"' then
        (parseStringBody (fuel + 1) rest).map (fun r => (.string (String.mk r.1), r.2))
      else if c = '-' ∨ c.isDigit then
        (parseNumber (c :: rest)).map (fun r => (.number r.1, r.2))
      else if c = 't' then (dropLiteral "rue".data rest).map (fun r => (.bool true, r))
      else if c = 'f' then (dropLiteral "alse".data rest).map (fun r => (.bool false, r))
      else if c = 'n' then (dropLiteral "ull".data rest).map (fun r => (.null, r))
      else none
/-- The members of an object after its opening brace, up to and including its closing brace. -/
def parseMembers : Nat → List Char → Option (List (String × JSON) × List Char)
  | 0, _ => none
  | fuel + 1, input =>
    match skipSpace input with
    | '"' :: rest =>
      match parseStringBody (fuel + 1) rest with
      | none => none
      | some (key, rest) =>
        match skipSpace rest with
        | ':' :: rest =>
          match parseValue fuel rest with
          | none => none
          | some (value, rest) =>
            match skipSpace rest with
            | ',' :: rest =>
              (parseMembers fuel rest).map (fun r => ((String.mk key, value) :: r.1, r.2))
            | '}' :: rest => some ([(String.mk key, value)], rest)
            | _ => none
        | _ => none
    | _ => none
/-- The elements of an array after its opening bracket, up to and including its closing bracket. -/
def parseElements : Nat → List Char → Option (List JSON × List Char)
  | 0, _ => none
  | fuel + 1, input =>
    match parseValue fuel input with
    | none => none
    | some (value, rest) =>
      match skipSpace rest with
      | ',' :: rest => (parseElements fuel rest).map (fun r => (value :: r.1, r.2))
      | ']' :: rest => some ([value], rest)
      | _ => none
end

/-- The syntax check and scan of `json.Unmarshal`: the whole input is one JSON value surrounded by
optional space. Two nested calls consume at least one character, so twice the length of the
input bounds the recursion: `parseValue_complete` shows that no amount of fuel parses more. -/
def parseJSON (data : String) : Option JSON :=
  match parseValue (2 * data.length + 2) data.data with
  | none => none
  | some (value, rest) =>
    match skipSpace rest with
    | [] => some value
    | _ :: _ => none


/-- The error `json.SyntaxError` returned for input that is not a JSON text. -/
def jsonSyntaxError : GoError := ⟨"json: syntax error"⟩

/-- The error `json.UnmarshalTypeError` returned when a value does not fit the Go type. -/
def jsonUnmarshalTypeError : GoError := ⟨"json: cannot unmarshal value into Go value"⟩

/-- Simple case folding of the characters that fold to an ASCII letter: the capital letters,
the Kelvin sign and the long s. -/
def foldChar (c : Char) : Char :=
  if 'A' ≤ c ∧ c ≤ 'Z' then Char.ofNat (c.toNat + 32)
  else if c = Char.ofNat 0x212A then 'k'
  else if c = Char.ofNat 0x17F then 's'
  else c

/-- The function `strings.EqualFold` when its first argument, a field name, is ASCII. -/
def equalFold (fieldName key : String) : Bool :=
  fieldName.data.map foldChar == key.data.map foldChar

/-- The field an object key is decoded into: the field of exactly that name, else the first
field whose name equals the key under case folding. -/
def findField (fields : List String) (key : String) : Option String :=
  match fields.find? (fun f => f = key) with
  | some f => some f
  | none => fields.find? (fun f => equalFold f key)

/-- Decoding of a JSON value into a Go `string` holding `current`. -/
def decodeString (current : String) : JSON → Except GoError String
  | .string s => .ok s
  | .null => .ok current
  | _ => .error jsonUnmarshalTypeError

/-- Assignment `m[k] = v` on a Go map kept as an association list. -/
def mapSet : List (String × String) → String → String → List (String × String)
  | [], k, v => [(k, v)]
  | (k1, v1) :: rest, k, v => if k1 = k then (k, v) :: rest else (k1, v1) :: mapSet rest k v

/-- Decoding of the members of a JSON object into a Go `map[string]string`: every element
starts from the zero value, which `null` leaves in place. -/
def decodeMapMembers :
    List (String × JSON) → List (String × String) → Except GoError (List (String × String))
  | [], m => .ok m
  | (key, value) :: rest, m =>
    match decodeString "" value with
    | .error e => .error e
    | .ok s => decodeMapMembers rest (mapSet m key s)

/-- Decoding of a JSON value into a Go `map[string]string` holding `current`; `none` is the
nil map. -/
def decodeStringMap (current : Option (List (String × String))) :
    JSON → Except GoError (Option (List (String × String)))
  | .object members => (decodeMapMembers members (current.getD [])).map some
  | .null => .ok none
  | _ => .error jsonUnmarshalTypeError

/-- Decoding of the members of a JSON object into a Go struct with the given field names;
keys that match no field are skipped. -/
def decodeMembers {α : Type} (fields : List String)
    (setField : String → JSON → α → Except GoError α) :
    List (String × JSON) → α → Except GoError α
  | [], v => .ok v
  | (key, value) :: rest, v =>
    match findField fields key with
    | none => decodeMembers fields setField rest v
    | some f =>
      match setField f value v with
      | .error e => .error e
      | .ok v => decodeMembers fields setField rest v

/-- The function `json.Unmarshal` into a pointer to a Go struct holding `v`. -/
def jsonUnmarshal {α : Type} (fields : List String)
    (setField : String → JSON → α → Except GoError α) (data : String) (v : α) :
    Except GoError α :=
  match parseJSON data with
  | none => .error jsonSyntaxError
  | some (.object members) => decodeMembers fields setField members v
  | some .null => .ok v
  | some _ => .error jsonUnmarshalTypeError

/-! ## Data model of the dispatcher -/

/-- The type `models.Task`, restricted to the fields the dispatcher reads. -/
structure Task where
  Guid : String
  Domain : String
  CreatedAt : Int
  Failed : Bool
  FailureReason : String
  Result : String
  Annotation : String
deriving DecidableEq, Repr

/-- The type `models.StagingTaskAnnotation`, with JSON names `app_id` and `task_id`. -/
structure StagingTaskAnnotation where
  AppId : String := ""
  TaskId : String := ""
deriving DecidableEq, Repr

def StagingTaskAnnotation.fields : List String := ["app_id", "task_id"]

def StagingTaskAnnotation.setField (name : String) (value : JSON) (a : StagingTaskAnnotation) :
    Except GoError StagingTaskAnnotation :=
  if name = "app_id" then (decodeString a.AppId value).map (fun s => { a with AppId := s })
  else if name = "task_id" then (decodeString a.TaskId value).map (fun s => { a with TaskId := s })
  else .ok a

/-- The type `models.StagingResult`. -/
structure StagingResult where
  BuildpackKey : String := ""
  DetectedBuildpack : String := ""
  ExecutionMetadata : String := ""
  DetectedStartCommand : Option (List (String × String)) := none
deriving DecidableEq, Repr

def StagingResult.fields : List String :=
  ["buildpack_key", "detected_buildpack", "execution_metadata", "detected_start_command"]

def StagingResult.setField (name : String) (value : JSON) (r : StagingResult) :
    Except GoError StagingResult :=
  if name = "buildpack_key" then
    (decodeString r.BuildpackKey value).map (fun s => { r with BuildpackKey := s })
  else if name = "detected_buildpack" then
    (decodeString r.DetectedBuildpack value).map (fun s => { r with DetectedBuildpack := s })
  else if name = "execution_metadata" then
    (decodeString r.ExecutionMetadata value).map (fun s => { r with ExecutionMetadata := s })
  else if name = "detected_start_command" then
    (decodeStringMap r.DetectedStartCommand value).map
      (fun m => { r with DetectedStartCommand := m })
  else .ok r

/-- The type `models.StagingDockerResult`. -/
structure StagingDockerResult where
  ExecutionMetadata : String := ""
  DetectedStartCommand : Option (List (String × String)) := none
deriving DecidableEq, Repr

def StagingDockerResult.fields : List String := ["execution_metadata", "detected_start_command"]

def StagingDockerResult.setField (name : String) (value : JSON) (r : StagingDockerResult) :
    Except GoError StagingDockerResult :=
  if name = "execution_metadata" then
    (decodeString r.ExecutionMetadata value).map (fun s => { r with ExecutionMetadata := s })
  else if name = "detected_start_command" then
    (decodeStringMap r.DetectedStartCommand value).map
      (fun m => { r with DetectedStartCommand := m })
  else .ok r

/-- The type `cc_messages.StagingResponseForCC`; the defaults are the Go zero values. -/
structure StagingResponseForCC where
  AppId : String := ""
  TaskId : String := ""
  BuildpackKey : String := ""
  DetectedBuildpack : String := ""
  ExecutionMetadata : String := ""
  DetectedStartCommand : Option (List (String × String)) := none
  Error : String := ""
deriving DecidableEq, Repr

/-- The type `cc_messages.DockerStagingResponseForCC`; the defaults are the Go zero values. -/
structure DockerStagingResponseForCC where
  AppId : String := ""
  TaskId : String := ""
  ExecutionMetadata : String := ""
  DetectedStartCommand : Option (List (String × String)) := none
  Error : String := ""
deriving DecidableEq, Repr

/-- Constants and library code used by the dispatcher that are not part of `outbox.go`. -/
structure OutboxEnv where
  /-- The constant `stager.TaskDomain`. -/
  TaskDomain : String
  /-- The constant `stager_docker.TaskDomain`. -/
  DockerTaskDomain : String
  /-- The function `json.Marshal` on a `StagingResponseForCC`. -/
  marshalResponse : StagingResponseForCC → Except GoError Payload
  /-- The function `json.Marshal` on a `DockerStagingResponseForCC`. -/
  marshalDockerResponse : DockerStagingResponseForCC → Except GoError Payload

/-- The interface `api_client.ApiClient`. -/
structure ApiClient (σ : Type) where
  StagingComplete : Payload → σ → Option GoError × σ

/-- The interface `timeprovider.TimeProvider`; a `time.Time` is its number of nanoseconds
since the Unix epoch. -/
structure TimeProvider (σ : Type) where
  Time : σ → Int × σ

/-- The type `Outbox`; what its logger writes is part of the effects. -/
structure Outbox (σ : Type) where
  bbs : StagerBBS σ
  apiClient : ApiClient σ
  timeProvider : TimeProvider σ

def stagingSuccessCounter : String := "StagingRequestsSucceeded"
def stagingSuccessDuration : String := "StagingRequestSucceededDuration"
def stagingFailureCounter : String := "StagingRequestsFailed"
def stagingFailureDuration : String := "StagingRequestFailedDuration"
def stagingFailedToResolveCounter : String := "StagingFailedToResolve"

/-! ## `time` -/

/-- The function `time.Unix`, in nanoseconds since the Unix epoch. -/
def timeUnix (sec nsec : Int) : Int := sec * 1000000000 + nsec

/-- The smallest `time.Duration`. -/
def minDuration : Int := -(2 ^ 63)

/-- The largest `time.Duration`. -/
def maxDuration : Int := 2 ^ 63 - 1

/-- Truncation of an integer to a signed 64-bit value. -/
def wrapInt64 (x : Int) : Int := (x + 2 ^ 63) % 2 ^ 64 - 2 ^ 63

/-- The method `Time.Sub`: the difference computed in 64 bits, replaced by the nearest bound
when adding it back to `u` does not give `t`. -/
def timeSub (t u : Int) : Int :=
  let d := wrapInt64 (t - u)
  if u + d = t then d
  else if t < u then minDuration
  else maxDuration

/-! ## `outbox.go` -/

/-- The method `Outbox.stagingComplete`. -/
def stagingComplete {σ : Type} (o : Outbox σ) (payload : Payload) (world : σ) : Outcome σ :=
  match o.apiClient.StagingComplete payload world with
  | (some err, world) =>
    ⟨some err, world,
      [.log .info "posting-staging-complete", .stagingComplete payload (some err),
        .log .error "failed-to-post-staging-complete"]⟩
  | (none, world) =>
    ⟨none, world,
      [.log .info "posting-staging-complete", .stagingComplete payload none,
        .log .info "posted-staging-complete"]⟩

/-- The response `Outbox.deliverResponse` builds before it marshals it, or the error it
returns before that. -/
def buildResponse (task : Task) : Except GoError StagingResponseForCC :=
  let message : StagingResponseForCC := {}
  let annotation : StagingTaskAnnotation := {}
  match jsonUnmarshal StagingTaskAnnotation.fields StagingTaskAnnotation.setField
      task.Annotation annotation with
  | .error err => .error err
  | .ok annotation =>
    let message := { message with AppId := annotation.AppId }
    let message := { message with TaskId := annotation.TaskId }
    if task.Failed then
      .ok { message with Error := task.FailureReason }
    else
      let result : StagingResult := {}
      match jsonUnmarshal StagingResult.fields StagingResult.setField task.Result result with
      | .error err => .error err
      | .ok result =>
        let message := { message with BuildpackKey := result.BuildpackKey }
        let message := { message with DetectedBuildpack := result.DetectedBuildpack }
        let message := { message with ExecutionMetadata := result.ExecutionMetadata }
        .ok { message with DetectedStartCommand := result.DetectedStartCommand }

/-- The method `Outbox.deliverResponse`. -/
def deliverResponse {σ : Type} (env : OutboxEnv) (o : Outbox σ) (task : Task) (world : σ) :
    Outcome σ :=
  match buildResponse task with
  | .error err => ⟨some err, world, []⟩
  | .ok message =>
    match env.marshalResponse message with
    | .error err => ⟨some err, world, [.log .error "marshal-error"]⟩
    | .ok payload => stagingComplete o payload world

/-- The response `Outbox.deliverDockerResponse` builds before it marshals it, or the error it
returns before that. -/
def buildDockerResponse (task : Task) : Except GoError DockerStagingResponseForCC :=
  let response : DockerStagingResponseForCC := {}
  let annotation : StagingTaskAnnotation := {}
  match jsonUnmarshal StagingTaskAnnotation.fields StagingTaskAnnotation.setField
      task.Annotation annotation with
  | .error err => .error err
  | .ok annotation =>
    let response := { response with AppId := annotation.AppId }
    let response := { response with TaskId := annotation.TaskId }
    if task.Failed then
      .ok { response with Error := task.FailureReason }
    else
      let result : StagingDockerResult := {}
      match jsonUnmarshal StagingDockerResult.fields StagingDockerResult.setField
          task.Result result with
      | .error err => .error err
      | .ok result =>
        let response := { response with ExecutionMetadata := result.ExecutionMetadata }
        .ok { response with DetectedStartCommand := result.DetectedStartCommand }

/-- The method `Outbox.deliverDockerResponse`. -/
def deliverDockerResponse {σ : Type} (env : OutboxEnv) (o : Outbox σ) (task : Task)
    (world : σ) : Outcome σ :=
  match buildDockerResponse task with
  | .error err => ⟨some err, world, []⟩
  | .ok response =>
    match env.marshalDockerResponse response with
    | .error err => ⟨some err, world, [.log .error "docker-marshal-error"]⟩
    | .ok payload => stagingComplete o payload world

/-- The branch of `Outbox.handleCompletedStagingTask` that picks the translator of the task's
domain. -/
def deliverByDomain {σ : Type} (env : OutboxEnv) (o : Outbox σ) (task : Task) (world : σ) :
    Outcome σ :=
  if task.Domain = env.TaskDomain then deliverResponse env o task world
  else deliverDockerResponse env o task world

/-- The branch of `Outbox.handleCompletedStagingTask` that emits the metrics of a completed
task. -/
def outcomeMetrics (task : Task) (duration : Int) : List Effect :=
  if task.Failed then
    [.counterIncrement stagingFailureCounter, .durationSend stagingFailureDuration duration]
  else
    [.durationSend stagingSuccessDuration duration, .counterIncrement stagingSuccessCounter]

/-- The method `Outbox.handleCompletedStagingTask`: the world afterwards and the effects
performed, oldest first. -/
def handleCompletedStagingTask {σ : Type} (env : OutboxEnv) (o : Outbox σ) (task : Task)
    (world : σ) : σ × List Effect :=
  if task.Domain ≠ env.TaskDomain ∧ task.Domain ≠ env.DockerTaskDomain then
    (world, [])
  else
    match o.timeProvider.Time world with
    | (now, world) =>
      let duration := timeSub now (timeUnix 0 task.CreatedAt)
      let effects := outcomeMetrics task duration
      match o.bbs.ResolvingTask task.Guid world with
      | (some err, world) =>
        (world, effects ++ [.resolvingTask task.Guid (some err), .log .error "resolving-failed"])
      | (none, world) =>
        let effects := effects ++
          [.resolvingTask task.Guid none, .log .info "resolving-success"]
        let delivered := deliverByDomain env o task world
        let effects := effects ++ delivered.effects
        match delivered.err with
        | some _ =>
          (delivered.world, effects ++
            [.log .error "deliver-response-failed",
              .counterIncrement stagingFailedToResolveCounter])
        | none =>
          match o.bbs.ResolveTask task.Guid delivered.world with
          | (some err, world) =>
            (world, effects ++ [.resolveTask task.Guid (some err), .log .error "resolve-failed"])
          | (none, world) =>
            (world, effects ++ [.resolveTask task.Guid none, .log .info "resolve-success"])

/-! ## Observations on effects -/

/-- A call made by the dispatcher on the coordinator or on the control-plane client, with
whether it returned no error. -/
inductive Call where
  | resolvingTask (guid : String) (ok : Bool)
  | stagingComplete (payload : Payload) (ok : Bool)
  | resolveTask (guid : String) (ok : Bool)
deriving DecidableEq, Repr

/-- The dispatcher call an effect stands for, if it is one. -/
def Effect.call? : Effect → Option Call
  | .resolvingTask guid err => some (.resolvingTask guid err.isNone)
  | .stagingComplete payload err => some (.stagingComplete payload err.isNone)
  | .resolveTask guid err => some (.resolveTask guid err.isNone)
  | _ => none

/-- The counter an effect increments, if it increments one. -/
def Effect.counter? : Effect → Option String
  | .counterIncrement name => some name
  | _ => none

/-- The duration metric and value an effect sends, if it sends one. -/
def Effect.duration? : Effect → Option (String × Int)
  | .durationSend name nanoseconds => some (name, nanoseconds)
  | _ => none

/-- The dispatcher calls among the effects, in order. -/
def calls (effects : List Effect) : List Call := effects.filterMap Effect.call?

/-- The counters incremented among the effects, in order. -/
def countersIncremented (effects : List Effect) : List String :=
  effects.filterMap Effect.counter?

/-- The durations sent among the effects, in order. -/
def durationsSent (effects : List Effect) : List (String × Int) :=
  effects.filterMap Effect.duration?

/-- A call of `ResolveTask`, whatever its outcome. -/
def Call.isResolveTask : Call → Bool
  | .resolveTask _ _ => true
  | _ => false

/-- A call of `apiClient.StagingComplete`, whatever its outcome. -/
def Call.isStagingComplete : Call → Bool
  | .stagingComplete _ _ => true
  | _ => false

/-- The outcome of the `ResolvingTask` call of `handleCompletedStagingTask`, made after the
clock has been read. -/
@[reducible] def resolvingStep {σ : Type} (o : Outbox σ) (task : Task) (world : σ) :
    Option GoError × σ :=
  o.bbs.ResolvingTask task.Guid (o.timeProvider.Time world).2

/-- The outcome of the translation and delivery of `handleCompletedStagingTask`, made after
the `ResolvingTask` call. -/
@[reducible] def deliveryStep {σ : Type} (env : OutboxEnv) (o : Outbox σ) (task : Task)
    (world : σ) : Outcome σ :=
  deliverByDomain env o task (resolvingStep o task world).2

/-- The duration `handleCompletedStagingTask` computes for a task. -/
@[reducible] def stagingDuration {σ : Type} (o : Outbox σ) (task : Task) (world : σ) : Int :=
  timeSub (o.timeProvider.Time world).1 (timeUnix 0 task.CreatedAt)

/-- The payload `deliverByDomain` posts, when translation and marshalling succeed. -/
def payloadOf (env : OutboxEnv) (task : Task) : Option Payload :=
  if task.Domain = env.TaskDomain then
    match buildResponse task with
    | .error _ => none
    | .ok message =>
      match env.marshalResponse message with
      | .error _ => none
      | .ok payload => some payload
  else
    match buildDockerResponse task with
    | .error _ => none
    | .ok response =>
      match env.marshalDockerResponse response with
      | .error _ => none
      | .ok payload => some payload

/-- The keys of a JSON object, in order; no keys for any other value. -/
def JSON.keys : JSON → List String
  | .object members => members.map (fun member => member.1)
  | _ => []

/-- The coordinator lets the task `guid` be claimed for resolution at most once: a successful
`ResolvingTask guid` leaves the world in a state `claimed`, in which `ResolvingTask guid`
fails, and no call of the dispatcher leaves that state. -/
structure ResolvingAtMostOnce {σ : Type} (o : Outbox σ) (guid : String) (claimed : σ → Prop) :
    Prop where
  claims : ∀ w, (o.bbs.ResolvingTask guid w).1 = none → claimed (o.bbs.ResolvingTask guid w).2
  refuses : ∀ w, claimed w → (o.bbs.ResolvingTask guid w).1 ≠ none
  keptByResolving : ∀ g w, claimed w → claimed (o.bbs.ResolvingTask g w).2
  keptByResolve : ∀ g w, claimed w → claimed (o.bbs.ResolveTask g w).2
  keptByPost : ∀ payload w, claimed w → claimed (o.apiClient.StagingComplete payload w).2
  keptByTime : ∀ w, claimed w → claimed (o.timeProvider.Time w).2

/-! ## The watch loop of `outbox.go`

`Outbox.Run` is a `select` loop over three channels. It is embedded as a step function over
the sequence of what the loop receives. Every dispatch runs to its end before the next event
is taken, which is one of the interleavings the goroutines of the source allow. -/

/-- What one turn of the `select` in `Outbox.Run` receives. -/
inductive WatchEvent where
  /-- The case `task, ok := <-tasks` with `ok` true. -/
  | item (task : Task)
  /-- The case `task, ok := <-tasks` with `ok` false: the task channel is closed. -/
  | tasksClosed
  /-- The case `err, ok := <-errs` with `ok` true; `err` may be nil. -/
  | error (err : Option GoError)
  /-- The case `err, ok := <-errs` with `ok` false: the error channel is closed. -/
  | errorsClosed
  /-- The case `<-signals`. -/
  | signal
deriving DecidableEq

/-- Whether the event is received on the error channel. -/
def WatchEvent.isStreamError : WatchEvent → Bool
  | .error _ => true
  | .errorsClosed => true
  | _ => false

/-- One observable effect of `Outbox.Run`. -/
inductive LoopEffect where
  /-- A call of `o.bbs.WatchForCompletedTask`. -/
  | watchForCompletedTask
  /-- A line of the watch logger. -/
  | log (level : LogLevel) (action : String)
  /-- The statement `close(ready)`. -/
  | closeReady
  /-- A goroutine running `handleCompletedStagingTask` on the task, with the effects of
  that run. -/
  | dispatch (task : Task) (effects : List Effect)
  /-- A call of `time.Sleep`. -/
  | sleep (nanoseconds : Int)
  /-- The statement `close(stopWatching)`. -/
  | closeStopWatching
  /-- The call `wg.Wait()`. -/
  | waitGroupWait

/-- The method `WatchForCompletedTask` of `bbs.StagerBBS`, which only `Outbox.Run` calls: what
the call does to the world. What the channels it returns deliver is the sequence of
`WatchEvent`s. -/
structure CompletedTaskWatcher (σ : Type) where
  WatchForCompletedTask : σ → σ

/-- The state of `Outbox.Run` between two turns of its loop. -/
structure LoopState (σ : Type) where
  world : σ
  /-- Whether the variable `tasks` holds a channel; it is nil once that channel was closed. -/
  tasksOpen : Bool
  effects : List LoopEffect
  /-- The error `Run` returned, once it has returned. -/
  returned : Option (Option GoError)

/-- Nanoseconds in `time.Second`. -/
def timeSecond : Int := 1000000000

/-- The zero value of `models.Task`, which a receive from a closed channel yields. -/
def zeroTask : Task :=
  { Guid := "", Domain := "", CreatedAt := 0, Failed := false, FailureReason := "",
    Result := "", Annotation := "" }

/-- The statements `wg.Add(1); go func() { ... o.handleCompletedStagingTask(task, ...) }()`. -/
def dispatchTask {σ : Type} (env : OutboxEnv) (o : Outbox σ) (task : Task)
    (s : LoopState σ) : LoopState σ :=
  { s with
    world := (handleCompletedStagingTask env o task s.world).1
    effects := s.effects ++
      [.dispatch task (handleCompletedStagingTask env o task s.world).2] }

/-- One turn of the `select` of `Outbox.Run`. A receive from the nil channel `tasks` is never
selected, so an event of the task channel leaves the state as it is when `tasks` is nil. -/
def runStep {σ : Type} (env : OutboxEnv) (o : Outbox σ) (watcher : CompletedTaskWatcher σ)
    (s : LoopState σ) : WatchEvent → LoopState σ
  | .item task =>
    if s.tasksOpen then dispatchTask env o task s else s
  | .tasksClosed =>
    if s.tasksOpen then dispatchTask env o zeroTask { s with tasksOpen := false } else s
  | .error err =>
    let logged : List LoopEffect :=
      if err ≠ none then [.log .error "failed"] else []
    { s with
      world := watcher.WatchForCompletedTask s.world
      tasksOpen := true
      effects := s.effects ++ logged ++ [.sleep (3 * timeSecond), .watchForCompletedTask] }
  | .errorsClosed =>
    { s with
      world := watcher.WatchForCompletedTask s.world
      tasksOpen := true
      effects := s.effects ++ [.sleep (3 * timeSecond), .watchForCompletedTask] }
  | .signal =>
    { s with
      effects := s.effects ++ [.closeStopWatching, .waitGroupWait, .log .info "stopped"]
      returned := some none }

/-- The loop `for { select { ... } }` of `Outbox.Run` over the events it receives: it takes
events until it has returned. -/
def runLoop {σ : Type} (env : OutboxEnv) (o : Outbox σ) (watcher : CompletedTaskWatcher σ) :
    LoopState σ → List WatchEvent → LoopState σ
  | s, [] => s
  | s, event :: rest =>
    match s.returned with
    | some _ => s
    | none => runLoop env o watcher (runStep env o watcher s event) rest

/-- The method `Outbox.Run` over the events its loop receives. -/
def Run {σ : Type} (env : OutboxEnv) (o : Outbox σ) (watcher : CompletedTaskWatcher σ)
    (events : List WatchEvent) (world : σ) : LoopState σ :=
  runLoop env o watcher
    { world := watcher.WatchForCompletedTask world
      tasksOpen := true
      effects := [.watchForCompletedTask, .log .info "started", .closeReady]
      returned := none }
    events

/-- The tasks dispatched, in order. -/
def dispatchedTasks : List LoopEffect → List Task
  | [] => []
  | .dispatch task _ :: rest => task :: dispatchedTasks rest
  | _ :: rest => dispatchedTasks rest

/-- The number of `WatchForCompletedTask` calls. -/
def watchCalls : List LoopEffect → Nat
  | [] => 0
  | .watchForCompletedTask :: rest => watchCalls rest + 1
  | _ :: rest => watchCalls rest

/-- The durations slept, in order. -/
def sleeps : List LoopEffect → List Int
  | [] => []
  | .sleep nanoseconds :: rest => nanoseconds :: sleeps rest
  | _ :: rest => sleeps rest

/-- The events up to the first shutdown signal, which are those the loop takes. -/
def untilSignal : List WatchEvent → List WatchEvent
  | [] => []
  | .signal :: _ => []
  | event :: rest => event :: untilSignal rest

/-! ## Test doubles

A small concrete coordinator, control-plane client and clock, in the manner of the fakes the
Go tests use, on which the theorems are instantiated. -/

/-- The state of the fake collaborators. -/
structure FakeWorld where
  fileServer : Option String := none
  desired : List RunOnce := []
  resolving : List String := []
  resolved : List String := []
  posted : List Payload := []
  ccReachable : Bool := true
  now : Int := 0

/-- A coordinator that hands out its file server, stores desired tasks, lets each task be
claimed for resolution once and lets a claimed task be resolved. -/
def fakeBBS : StagerBBS FakeWorld where
  GetAvailableFileServer w :=
    match w.fileServer with
    | none => (.error (errorsNew "no file servers"), w)
    | some url => (.ok url, w)
  DesireRunOnce task w := (none, { w with desired := w.desired ++ [task] })
  ResolvingTask guid w :=
    if guid ∈ w.resolving then (some (errorsNew "task already resolving"), w)
    else (none, { w with resolving := guid :: w.resolving })
  ResolveTask guid w :=
    if guid ∈ w.resolving then (none, { w with resolved := guid :: w.resolved })
    else (some (errorsNew "task not resolving"), w)

/-- A control-plane client that records what is posted while it is reachable. -/
def fakeApiClient : ApiClient FakeWorld where
  StagingComplete payload w :=
    if w.ccReachable then (none, { w with posted := w.posted ++ [payload] })
    else (some (errorsNew "connection refused"), w)

/-- A clock that reads the time of the fake world. -/
def fakeTimeProvider : TimeProvider FakeWorld where
  Time w := (w.now, w)

def fakeOutbox : Outbox FakeWorld := ⟨fakeBBS, fakeApiClient, fakeTimeProvider⟩

/-- A stand-in for the library code `Stage` uses. -/
def fakeStagerEnv : StagerEnv where
  NewLinuxSmeltingConfig _ :=
    { CompilerPath := "/tmp/compiler"
      AppDir := "/app"
      BuildpackPath := fun key => "/tmp/buildpacks/" ++ key
      Script := "/tmp/compiler/run"
      DropletArchivePath := "/tmp/droplet.tgz"
      ResultJsonPath := "/tmp/result.json" }
  FS_STATIC := "static"
  FS_UPLOAD_DROPLET := "upload_droplet"
  RouteForHandler handler :=
    if handler = "static" then some ⟨"static", "GET", "/static/"⟩
    else if handler = "upload_droplet" then some ⟨"upload_droplet", "POST", "/droplet/:guid"⟩
    else none
  PathWithParams _ params :=
    match params.lookup "guid" with
    | some guid => .ok ("/droplet/" ++ guid)
    | none => .error (errorsNew "missing param guid")
  urljoinerJoin base parts := parts.foldl (fun url part => url ++ part) base

/-- A stand-in for the constants and the marshaller the dispatcher uses. -/
def fakeOutboxEnv : OutboxEnv where
  TaskDomain := "cf-app-staging"
  DockerTaskDomain := "cf-app-docker-staging"
  marshalResponse m := .ok (m.AppId ++ "/" ++ m.TaskId ++ "/" ++ m.BuildpackKey ++ "/" ++ m.Error)
  marshalDockerResponse m := .ok (m.AppId ++ "/" ++ m.TaskId ++ "/" ++ m.Error)

def fakeCompilers : List (String × String) := [("lucid64", "lucid64-compiler.tgz")]

def fakeRequest : StagingRequestFromCC where
  AppId := "app"
  TaskId := "task"
  Stack := "lucid64"
  AppBitsDownloadUri := "http://cc/app-bits"
  FileDescriptors := 17
  MemoryMB := 256
  DiskMB := 1024
  Buildpacks := [⟨"ruby", "http://cc/ruby.zip"⟩, ⟨"go", "http://cc/go.zip"⟩]
  Environment := [("VCAP", "yes")]

def fakeWorld : FakeWorld := { fileServer := some "http://fs.example", now := 1000000 }

/-- A completed buildpack staging task that succeeded. -/
def fakeTask : Task where
  Guid := "the-task-guid"
  Domain := "cf-app-staging"
  CreatedAt := 99100
  Failed := false
  FailureReason := ""
  Result := "\x7b\"buildpack_key\":\"bp1\",\"detected_buildpack\":\"Ruby\"," ++
    "\"detected_start_command\":\x7b\"web\":\"run.sh\"\x7d\x7d"
  Annotation := "\x7b\"task_id\": \"the-task-id\", \"app_id\": \"the-app-id\"\x7d"

/-- A completed buildpack staging task that failed. -/
def fakeFailedTask : Task :=
  { fakeTask with Failed := true, FailureReason := "because I said so", Result := "\x7b\x7d" }

/-- A completed staging task created at the earliest instant an `int64` of nanoseconds can
hold. -/
def fakeOldTask : Task := { fakeTask with CreatedAt := -9223372036854775808 }

/-- A completed staging task whose annotation is not JSON. -/
def fakeGarbledTask : Task := { fakeTask with Annotation := ",goo" }

/-- A completed staging task whose annotation is a JSON object without `app_id`. -/
def fakeAnonymousTask : Task :=
  { fakeTask with Annotation := "\x7b\"task_id\": \"the-task-id\"\x7d" }

/-- A completed task that is not a staging task. -/
def fakeForeignTask : Task :=
  { fakeFailedTask with Domain := "some-other-crazy-domain" }

/-- A watch that leaves the fake world as it is. -/
def fakeWatcher : CompletedTaskWatcher FakeWorld where
  WatchForCompletedTask w := w

/-! ## The fuel of the JSON scanner -/

theorem option_map_step {α β : Type} (g : α → β) (a b : Option α) (h : a = none ∨ a = b) :
    Option.map g a = none ∨ Option.map g a = Option.map g b := by
  rcases h with h | h
  · left; rw [h]; rfl
  · right; rw [h]

/-- One more unit of fuel never changes what the string scanner has parsed. -/
theorem parseStringBody_step (f : Nat) :
    ∀ input : List Char,
      parseStringBody f input = none ∨
        parseStringBody f input = parseStringBody (f + 1) input := by
  induction f with
  | zero => intro input; left; cases input <;> rfl
  | succ f ih =>
    intro input
    cases input with
    | nil => left; rfl
    | cons c rest =>
      simp only [parseStringBody]
      repeat' (first | (left; rfl) | (right; rfl) | exact option_map_step _ _ _ (ih _) | split)


/-- One more unit of fuel never changes what the scanner has parsed. -/
theorem parse_step (f : Nat) :
    (∀ input, parseValue f input = none ∨ parseValue f input = parseValue (f + 1) input) ∧
    (∀ input, parseMembers f input = none ∨ parseMembers f input = parseMembers (f + 1) input) ∧
    (∀ input, parseElements f input = none ∨
      parseElements f input = parseElements (f + 1) input) := by
  induction f with
  | zero => exact ⟨fun _ => Or.inl rfl, fun _ => Or.inl rfl, fun _ => Or.inl rfl⟩
  | succ f ih =>
    obtain ⟨ihv, ihm, ihe⟩ := ih
    refine ⟨?_, ?_, ?_⟩
    · intro input
      rw [parseValue, parseValue]
      repeat' (first
        | (left; rfl) | (right; rfl)
        | exact option_map_step _ _ _ (ihm _)
        | exact option_map_step _ _ _ (ihe _)
        | exact option_map_step _ _ _ (parseStringBody_step _ _)
        | split)
    · intro input
      rw [parseMembers, parseMembers]
      split
      · rename_i rest _
        rcases parseStringBody_step (f + 1) rest with h | h
        · left; rw [h]
        · rw [← h]
          split
          · left; rfl
          · split
            · rename_i rest2 _
              rcases ihv rest2 with h2 | h2
              · left; rw [h2]
              · rw [← h2]
                repeat' (first
                  | (left; rfl) | (right; rfl)
                  | exact option_map_step _ _ _ (ihm _)
                  | split)
            · left; rfl
      · left; rfl
    · intro input
      rw [parseElements, parseElements]
      rcases ihv input with h | h
      · left; rw [h]
      · rw [← h]
        repeat' (first
          | (left; rfl) | (right; rfl)
          | exact option_map_step _ _ _ (ihe _)
          | split)

/-- More fuel never changes what the scanner has parsed. -/
theorem parseValue_mono (f g : Nat) (input : List Char) (r : JSON × List Char)
    (h : parseValue f input = some r) (hfg : f ≤ g) : parseValue g input = some r := by
  induction hfg with
  | refl => exact h
  | step _ ih =>
    rename_i m _
    rcases (parse_step m).1 input with h2 | h2
    · rw [h2] at ih; cases ih
    · rw [← h2]; exact ih

theorem skipSpace_length (l : List Char) : (skipSpace l).length ≤ l.length := by
  induction l with
  | nil => simp [skipSpace]
  | cons c rest ih =>
    rw [skipSpace]
    split
    · simp; omega
    · simp

theorem skipSpace_cons_length (l rest : List Char) (c : Char) (h : skipSpace l = c :: rest) :
    rest.length < l.length := by
  have := skipSpace_length l
  rw [h] at this
  simpa using this

theorem hex4_length (l rest : List Char) (n : Nat) (h : hex4 l = some (n, rest)) :
    rest.length < l.length := by
  unfold hex4 at h
  split at h
  · split at h
    · simp only [Option.some.injEq, Prod.mk.injEq] at h
      rw [← h.2]
      simp only [List.length_cons]
      omega
    · cases h
  · cases h

theorem getu4_length (l rest : List Char) (n : Nat) (h : getu4 l = some (n, rest)) :
    rest.length < l.length := by
  unfold getu4 at h
  split at h
  · have := hex4_length _ _ _ h
    simp only [List.length_cons]
    omega
  · cases h

theorem map_cons_some (x : Option (List Char × List Char)) (a : Char) (cs rest : List Char)
    (h : x.map (fun r => (a :: r.1, r.2)) = some (cs, rest)) : ∃ cs1, x = some (cs1, rest) := by
  cases x with
  | none => cases h
  | some r =>
    simp only [Option.map_some', Option.some.injEq, Prod.mk.injEq] at h
    exact ⟨r.1, by rw [← h.2]⟩

/-- A string literal consumes input. -/
theorem parseStringBody_length (f : Nat) :
    ∀ (input cs rest : List Char), parseStringBody f input = some (cs, rest) →
      rest.length < input.length := by
  induction f with
  | zero => intro input cs rest h; simp [parseStringBody] at h
  | succ f ih =>
    intro input cs rest h
    cases input with
    | nil => simp [parseStringBody] at h
    | cons c rest0 =>
      unfold parseStringBody at h
      split at h
      · simp only [Option.some.injEq, Prod.mk.injEq] at h
        rw [← h.2]; simp
      · split at h
        · split at h
          · cases h
          · rename_i e rest1
            split at h
            · split at h
              · cases h
              · rename_i rr rest2 hhex
                have h2 := hex4_length _ _ _ hhex
                split at h
                · split at h
                  · rename_i rr1 rest3 hu4
                    have h3 := getu4_length _ _ _ hu4
                    split at h
                    · obtain ⟨cs1, hx⟩ := map_cons_some _ _ _ _ h
                      have := ih _ _ _ hx
                      simp only [List.length_cons]; omega
                    · obtain ⟨cs1, hx⟩ := map_cons_some _ _ _ _ h
                      have := ih _ _ _ hx
                      simp only [List.length_cons]; omega
                  · obtain ⟨cs1, hx⟩ := map_cons_some _ _ _ _ h
                    have := ih _ _ _ hx
                    simp only [List.length_cons]; omega
                · obtain ⟨cs1, hx⟩ := map_cons_some _ _ _ _ h
                  have := ih _ _ _ hx
                  simp only [List.length_cons]; omega
            · split at h
              · cases h
              · obtain ⟨cs1, hx⟩ := map_cons_some _ _ _ _ h
                have := ih _ _ _ hx
                simp only [List.length_cons]; omega
        · split at h
          · cases h
          · obtain ⟨cs1, hx⟩ := map_cons_some _ _ _ _ h
            have := ih _ _ _ hx
            simp only [List.length_cons]; omega

theorem takeDigits_length (l : List Char) : (takeDigits l).2.length ≤ l.length := by
  induction l with
  | nil => simp [takeDigits]
  | cons c rest ih =>
    rw [takeDigits]
    split
    · simp only [List.length_cons]; omega
    · simp

theorem takeDigits_eq_length (l ds rest : List Char) (h : takeDigits l = (ds, rest)) :
    rest.length ≤ l.length := by
  have := takeDigits_length l
  rw [h] at this
  exact this

theorem parseExponent_length (l ds rest : List Char) (h : parseExponent l = some (ds, rest)) :
    rest.length ≤ l.length := by
  unfold parseExponent at h
  split at h
  · split at h
    · split at h
      · split at h
        · split at h
          · cases h
          · have := takeDigits_eq_length _ _ _ (by assumption)
            simp only [Option.some.injEq, Prod.mk.injEq] at h
            rw [← h.2]
            simp only [List.length_cons] at this ⊢
            omega
        · split at h
          · cases h
          · have := takeDigits_eq_length _ _ _ (by assumption)
            simp only [Option.some.injEq, Prod.mk.injEq] at h
            rw [← h.2]
            simp only [List.length_cons] at this ⊢
            omega
      · cases h
    · simp only [Option.some.injEq, Prod.mk.injEq] at h
      rw [← h.2]
  · simp only [Option.some.injEq, Prod.mk.injEq] at h
    rw [← h.2]

theorem parseFraction_length (l ds rest : List Char) (h : parseFraction l = some (ds, rest)) :
    rest.length ≤ l.length := by
  unfold parseFraction at h
  split at h
  · split at h
    · cases h
    · have := takeDigits_eq_length _ _ _ (by assumption)
      simp only [Option.some.injEq, Prod.mk.injEq] at h
      rw [← h.2]
      simp only [List.length_cons] at this ⊢
      omega
  · simp only [Option.some.injEq, Prod.mk.injEq] at h
    rw [← h.2]

theorem parseIntegerPart_length (l ds rest : List Char)
    (h : parseIntegerPart l = some (ds, rest)) : rest.length < l.length := by
  unfold parseIntegerPart at h
  split at h
  · rename_i c rest0
    split at h
    · simp only [Option.some.injEq, Prod.mk.injEq] at h
      rw [← h.2]; simp
    · split at h
      · have := takeDigits_length rest0
        simp only [Option.some.injEq, Prod.mk.injEq] at h
        rw [← h.2]
        simp only [List.length_cons]
        omega
      · cases h
  · cases h

theorem parseUnsigned_length (l ds rest : List Char) (h : parseUnsigned l = some (ds, rest)) :
    rest.length < l.length := by
  unfold parseUnsigned at h
  split at h
  · cases h
  · have h1 := parseIntegerPart_length _ _ _ (by assumption)
    split at h
    · cases h
    · have h2 := parseFraction_length _ _ _ (by assumption)
      split at h
      · cases h
      · have h3 := parseExponent_length _ _ _ (by assumption)
        simp only [Option.some.injEq, Prod.mk.injEq] at h
        rw [← h.2]
        omega

theorem parseNumber_length (l ds rest : List Char) (h : parseNumber l = some (ds, rest)) :
    rest.length < l.length := by
  unfold parseNumber at h
  split at h
  · obtain ⟨cs1, hx⟩ := map_cons_some _ _ _ _ h
    have := parseUnsigned_length _ _ _ hx
    simp only [List.length_cons]
    omega
  · exact parseUnsigned_length _ _ _ h

theorem dropLiteral_length (name : List Char) :
    ∀ (l rest : List Char), dropLiteral name l = some rest → rest.length ≤ l.length := by
  induction name with
  | nil => intro l rest h; simp only [dropLiteral, Option.some.injEq] at h; rw [h]
  | cons n name ih =>
    intro l rest h
    cases l with
    | nil => simp [dropLiteral] at h
    | cons c l =>
      rw [dropLiteral] at h
      split at h
      · have := ih _ _ h
        simp only [List.length_cons]
        omega
      · cases h

theorem map_snd_some {α β : Type} (x : Option (α × List Char))
    (g : α × List Char → β × List Char) (b : β) (rest : List Char)
    (h : x.map g = some (b, rest)) (hg : ∀ r, (g r).2 = r.2) : ∃ a, x = some (a, rest) := by
  cases x with
  | none => cases h
  | some r =>
    simp only [Option.map_some', Option.some.injEq] at h
    have hr : rest = r.2 := by
      have := hg r
      rw [h] at this
      exact this
    exact ⟨r.1, by rw [hr]⟩

/-- Every successful parse consumes input. -/
theorem parse_length (f : Nat) :
    (∀ input v rest, parseValue f input = some (v, rest) → rest.length < input.length) ∧
    (∀ input ms rest, parseMembers f input = some (ms, rest) → rest.length < input.length) ∧
    (∀ input vs rest, parseElements f input = some (vs, rest) → rest.length < input.length) := by
  induction f with
  | zero =>
    refine ⟨?_, ?_, ?_⟩ <;> intro input v rest h
    · simp [parseValue] at h
    · simp [parseMembers] at h
    · simp [parseElements] at h
  | succ f ih =>
    obtain ⟨ihv, ihm, ihe⟩ := ih
    refine ⟨?_, ?_, ?_⟩
    · intro input v rest h
      rw [parseValue] at h
      split at h
      · cases h
      · rename_i c rest0 hskip
        have hs := skipSpace_cons_length _ _ _ hskip
        split at h
        · split at h
          · have := skipSpace_cons_length _ _ _ (by assumption)
            simp only [Option.some.injEq, Prod.mk.injEq] at h
            rw [← h.2]; omega
          · obtain ⟨a, hx⟩ := map_snd_some _ _ _ _ h (fun _ => rfl)
            have := ihm _ _ _ hx
            omega
        · split at h
          · split at h
            · have := skipSpace_cons_length _ _ _ (by assumption)
              simp only [Option.some.injEq, Prod.mk.injEq] at h
              rw [← h.2]; omega
            · obtain ⟨a, hx⟩ := map_snd_some _ _ _ _ h (fun _ => rfl)
              have := ihe _ _ _ hx
              omega
          · split at h
            · obtain ⟨a, hx⟩ := map_snd_some _ _ _ _ h (fun _ => rfl)
              have := parseStringBody_length _ _ _ _ hx
              omega
            · split at h
              · obtain ⟨a, hx⟩ := map_snd_some _ _ _ _ h (fun _ => rfl)
                have := parseNumber_length _ _ _ hx
                simp only [List.length_cons] at this
                omega
              · split at h
                · obtain ⟨a, hx, ha⟩ := Option.map_eq_some'.1 h
                  have := dropLiteral_length _ _ _ hx
                  simp only [Prod.mk.injEq] at ha
                  rw [← ha.2]; omega
                · split at h
                  · obtain ⟨a, hx, ha⟩ := Option.map_eq_some'.1 h
                    have := dropLiteral_length _ _ _ hx
                    simp only [Prod.mk.injEq] at ha
                    rw [← ha.2]; omega
                  · split at h
                    · obtain ⟨a, hx, ha⟩ := Option.map_eq_some'.1 h
                      have := dropLiteral_length _ _ _ hx
                      simp only [Prod.mk.injEq] at ha
                      rw [← ha.2]; omega
                    · cases h
    · intro input ms rest h
      rw [parseMembers] at h
      split at h
      · have h1 := skipSpace_cons_length _ _ _ (by assumption)
        split at h
        · cases h
        · have h2 := parseStringBody_length _ _ _ _ (by assumption)
          split at h
          · have h3 := skipSpace_cons_length _ _ _ (by assumption)
            split at h
            · cases h
            · have h4 := ihv _ _ _ (by assumption)
              split at h
              · have h5 := skipSpace_cons_length _ _ _ (by assumption)
                obtain ⟨a, hx⟩ := map_snd_some _ _ _ _ h (fun _ => rfl)
                have := ihm _ _ _ hx
                omega
              · have h5 := skipSpace_cons_length _ _ _ (by assumption)
                simp only [Option.some.injEq, Prod.mk.injEq] at h
                rw [← h.2]; omega
              · cases h
          · cases h
      · cases h
    · intro input vs rest h
      rw [parseElements] at h
      split at h
      · cases h
      · have h4 := ihv _ _ _ (by assumption)
        split at h
        · have h5 := skipSpace_cons_length _ _ _ (by assumption)
          obtain ⟨a, hx⟩ := map_snd_some _ _ _ _ h (fun _ => rfl)
          have := ihe _ _ _ hx
          omega
        · have h5 := skipSpace_cons_length _ _ _ (by assumption)
          simp only [Option.some.injEq, Prod.mk.injEq] at h
          rw [← h.2]; omega
        · cases h

/-- Fuel beyond the length of the input changes nothing for the string scanner. -/
theorem parseStringBody_enough (f : Nat) :
    ∀ input : List Char, input.length < f →
      parseStringBody f input = parseStringBody (f + 1) input := by
  induction f with
  | zero => intro input h; omega
  | succ f ih =>
    intro input hlen
    cases input with
    | nil => rfl
    | cons c rest =>
      simp only [parseStringBody]
      simp only [List.length_cons] at hlen
      repeat' (first
        | rfl
        | rw [ih _ (by first | omega | (simp only [List.length_cons] at *; omega))]
        | (have h2 := hex4_length _ _ _ (by assumption)
           rw [ih _ (by first | omega | (simp only [List.length_cons] at *; omega))])
        | (have h2 := hex4_length _ _ _ (by assumption)
           have h3 := getu4_length _ _ _ (by assumption)
           rw [ih _ (by first | omega | (simp only [List.length_cons] at *; omega))])
        | split)

/-- Fuel beyond twice the length of the input changes nothing for the scanner. -/
theorem parse_enough (f : Nat) :
    (∀ input, 2 * input.length ≤ f → parseValue f input = parseValue (f + 1) input) ∧
    (∀ input, 2 * input.length ≤ f → parseMembers f input = parseMembers (f + 1) input) ∧
    (∀ input, 2 * input.length + 1 ≤ f →
      parseElements f input = parseElements (f + 1) input) := by
  induction f with
  | zero =>
    refine ⟨?_, ?_, ?_⟩ <;> intro input h
    · have : input = [] := List.eq_nil_of_length_eq_zero (by omega)
      subst this; rfl
    · have : input = [] := List.eq_nil_of_length_eq_zero (by omega)
      subst this; rfl
    · omega
  | succ f ih =>
    obtain ⟨ihv, ihm, ihe⟩ := ih
    refine ⟨?_, ?_, ?_⟩
    · intro input hlen
      rw [parseValue, parseValue]
      split
      · rfl
      · have hs := skipSpace_cons_length _ _ _ (by assumption)
        repeat' (first
          | rfl
          | rw [ihm _ (by omega)]
          | rw [ihe _ (by omega)]
          | rw [parseStringBody_enough (f + 1) _ (by omega)])
    · intro input hlen
      rw [parseMembers, parseMembers]
      split
      · have h1 := skipSpace_cons_length _ _ _ (by assumption)
        rw [← parseStringBody_enough (f + 1) _ (by omega)]
        split
        · rfl
        · have h2 := parseStringBody_length _ _ _ _ (by assumption)
          split
          · have h3 := skipSpace_cons_length _ _ _ (by assumption)
            rw [← ihv _ (by omega)]
            split
            · rfl
            · have h4 := (parse_length f).1 _ _ _ (by assumption)
              split
              · have h5 := skipSpace_cons_length _ _ _ (by assumption)
                rw [ihm _ (by omega)]
              · rfl
              · rfl
          · rfl
      · rfl
    · intro input hlen
      rw [parseElements, parseElements]
      rw [← ihv _ (by omega)]
      split
      · rfl
      · have h4 := (parse_length f).1 _ _ _ (by assumption)
        split
        · have h5 := skipSpace_cons_length _ _ _ (by assumption)
          rw [ihe _ (by omega)]
        · rfl
        · rfl

/-- The fuel `parseJSON` gives the scanner is enough: more fuel gives the same result. -/
theorem parseValue_fuel (input : List Char) (fuel : Nat) (h : 2 * input.length ≤ fuel) :
    parseValue fuel input = parseValue (2 * input.length) input := by
  induction h with
  | refl => rfl
  | step hle ih =>
    rename_i m
    rw [← (parse_enough m).1 input hle]
    exact ih

/-- Whatever some amount of fuel parses, the fuel of `parseJSON` parses to the same result. -/
theorem parseValue_complete (input : List Char) (fuel : Nat) (r : JSON × List Char)
    (h : parseValue fuel input = some r) :
    parseValue (2 * input.length + 2) input = some r := by
  have h1 := parseValue_mono fuel (max fuel (2 * input.length + 2)) input r h (le_max_left _ _)
  rw [parseValue_fuel input _ (le_trans (by omega) (le_max_right _ _))] at h1
  rw [parseValue_fuel input _ (by omega)]
  exact h1

/-! ## Lemmas on the builder -/

theorem utf8ByteSize_go_eq_zero (cs : List Char) :
    String.utf8ByteSize.go cs = 0 ↔ cs = [] := by
  cases cs with
  | nil => simp [String.utf8ByteSize.go]
  | cons c cs =>
    have := Char.utf8Size_pos c
    simp [String.utf8ByteSize.go]
    omega

/-- The Go test `len(s) == 0` holds of the empty string only. -/
theorem utf8ByteSize_eq_zero (s : String) : s.utf8ByteSize = 0 ↔ s = "" := by
  cases s with
  | mk cs =>
    simp only [String.utf8ByteSize, utf8ByteSize_go_eq_zero]
    constructor
    · intro h; subst h; rfl
    · intro h; exact congrArg String.data h

/-- The buildpack loop appends the downloads of the buildpacks, in request order. -/
theorem appendBuildpackDownloads_eq (cfg : LinuxSmeltingConfig) (buildpacks : List Buildpack) :
    ∀ actions : List ExecutorAction,
      appendBuildpackDownloads cfg actions buildpacks =
        actions ++ buildpacks.map
          (fun b => ExecutorAction.DownloadAction b.Url (cfg.BuildpackPath b.Key) true) := by
  induction buildpacks with
  | nil => intro actions; simp [appendBuildpackDownloads]
  | cons b rest ih =>
    intro actions
    have := ih (actions ++ [ExecutorAction.DownloadAction b.Url (cfg.BuildpackPath b.Key) true])
    simp only [appendBuildpackDownloads, List.foldl_cons] at this ⊢
    rw [this]
    simp

/-- Every task `Stage` submits carries the identity `AppId-TaskId` of its request. -/
theorem submittedTasks_guid {σ : Type} (env : StagerEnv) (stagerBBS : StagerBBS σ)
    (compilers : List (String × String)) (request : StagingRequestFromCC) (replyTo : String)
    (world : σ) (task : RunOnce)
    (h : task ∈ submittedTasks (Stage env stagerBBS compilers request replyTo world).effects) :
    task.Guid = request.AppId ++ "-" ++ request.TaskId := by
  unfold Stage at h
  split at h
  · simp [submittedTasks] at h
  · split at h
    · simp [submittedTasks] at h
    · simp only at h
      split at h
      · simp [submittedTasks] at h
      · split at h
        · simp [submittedTasks] at h
        · simp [submittedTasks] at h
          subst h
          simp [stringsJoin]

/-- A text is cut at its first `-` in one way only. -/
theorem dash_split_unique :
    ∀ (a1 a2 b1 b2 : List Char), '-' ∉ a1 → '-' ∉ a2 →
      a1 ++ '-' :: b1 = a2 ++ '-' :: b2 → a1 = a2 ∧ b1 = b2 := by
  intro a1
  induction a1 with
  | nil =>
    intro a2 b1 b2 _ h2 h
    cases a2 with
    | nil => simpa using h
    | cons c a2 =>
      simp only [List.nil_append, List.cons_append, List.cons.injEq] at h
      simp only [List.mem_cons, not_or] at h2
      exact absurd h.1 h2.1
  | cons c a1 ih =>
    intro a2 b1 b2 h1 h2 h
    simp only [List.mem_cons, not_or] at h1
    cases a2 with
    | nil =>
      simp only [List.nil_append, List.cons_append, List.cons.injEq] at h
      exact absurd h.1.symm h1.1
    | cons d a2 =>
      simp only [List.mem_cons, not_or] at h2
      simp only [List.cons_append, List.cons.injEq] at h
      have := ih a2 b1 b2 h1.2 h2.2 h.2
      exact ⟨by rw [h.1, this.1], this.2⟩

/-! ## Claims on the builder -/

/-- C1: a request with an empty AppId makes `Stage` return `ErrMissingAppId` without any call
on the coordinator: no effect is performed (neither `GetAvailableFileServer` nor
`DesireRunOnce`), no task is submitted and the world is left as it was. -/
theorem C1_stage_missing_app_id {σ : Type} (env : StagerEnv) (stagerBBS : StagerBBS σ)
    (compilers : List (String × String)) (request : StagingRequestFromCC) (replyTo : String)
    (world : σ) (h : request.AppId = "") :
    (Stage env stagerBBS compilers request replyTo world).err = some ErrMissingAppId ∧
    (Stage env stagerBBS compilers request replyTo world).effects = [] ∧
    submittedTasks (Stage env stagerBBS compilers request replyTo world).effects = [] ∧
    (Stage env stagerBBS compilers request replyTo world).world = world := by
  have h0 : request.AppId.utf8ByteSize = 0 := (utf8ByteSize_eq_zero _).2 h
  simp [Stage, h0, submittedTasks]

/-- C1 at a concrete request with an empty AppId, on the test doubles. -/
theorem C1_stage_missing_app_id_witness :
    (Stage fakeStagerEnv fakeBBS fakeCompilers { fakeRequest with AppId := "" } "reply"
        fakeWorld).err = some ErrMissingAppId ∧
    (Stage fakeStagerEnv fakeBBS fakeCompilers { fakeRequest with AppId := "" } "reply"
        fakeWorld).effects = [] ∧
    submittedTasks (Stage fakeStagerEnv fakeBBS fakeCompilers { fakeRequest with AppId := "" }
        "reply" fakeWorld).effects = [] ∧
    (Stage fakeStagerEnv fakeBBS fakeCompilers { fakeRequest with AppId := "" } "reply"
        fakeWorld).world = fakeWorld :=
  C1_stage_missing_app_id fakeStagerEnv fakeBBS fakeCompilers { fakeRequest with AppId := "" }
    "reply" fakeWorld rfl

/-- C2, as stated, fails: a request whose stack has no compiler and whose AppId is empty is
rejected with `ErrMissingAppId`, not with `ErrNoCompilerDefined`. -/
theorem C2_counterexample :
    fakeCompilers.lookup "no-such-stack" = none ∧
    (Stage fakeStagerEnv fakeBBS fakeCompilers
        { fakeRequest with AppId := "", Stack := "no-such-stack" } "reply" fakeWorld).err
      = some ErrMissingAppId ∧
    (Stage fakeStagerEnv fakeBBS fakeCompilers
        { fakeRequest with AppId := "", Stack := "no-such-stack" } "reply" fakeWorld).err
      ≠ some ErrNoCompilerDefined := by
  decide

/-- C2, amended: a request whose stack is not a key of the compiler table makes `Stage` fail
without submitting a task. The error is `ErrMissingAppId` when the AppId is empty; with a
non-empty AppId it is `ErrNoFileServerPresent` when the coordinator has no file server, and
`ErrNoCompilerDefined` when the coordinator has one. -/
theorem C2_stage_no_compiler {σ : Type} (env : StagerEnv) (stagerBBS : StagerBBS σ)
    (compilers : List (String × String)) (request : StagingRequestFromCC) (replyTo : String)
    (world : σ) (h : compilers.lookup request.Stack = none) :
    (Stage env stagerBBS compilers request replyTo world).err ≠ none ∧
    submittedTasks (Stage env stagerBBS compilers request replyTo world).effects = [] ∧
    (request.AppId = "" →
      (Stage env stagerBBS compilers request replyTo world).err = some ErrMissingAppId) ∧
    (request.AppId ≠ "" →
      (∃ e, (stagerBBS.GetAvailableFileServer world).1 = .error e) →
      (Stage env stagerBBS compilers request replyTo world).err
        = some ErrNoFileServerPresent) ∧
    (request.AppId ≠ "" →
      (∃ url, (stagerBBS.GetAvailableFileServer world).1 = .ok url) →
      (Stage env stagerBBS compilers request replyTo world).err = some ErrNoCompilerDefined) := by
  by_cases h0 : request.AppId.utf8ByteSize = 0
  · have hempty := (utf8ByteSize_eq_zero _).1 h0
    refine ⟨by simp [Stage, h0], by simp [Stage, h0, submittedTasks],
      fun _ => by simp [Stage, h0], ?_, ?_⟩
    · intro hne; exact absurd hempty hne
    · intro hne; exact absurd hempty hne
  · have hne : request.AppId ≠ "" := fun he => h0 ((utf8ByteSize_eq_zero _).2 he)
    rcases hfs : stagerBBS.GetAvailableFileServer world with ⟨r, w1⟩
    cases r with
    | error e =>
      refine ⟨by simp [Stage, h0, hfs], by simp [Stage, h0, hfs, submittedTasks],
        fun he => absurd he hne, fun _ _ => by simp [Stage, h0, hfs], ?_⟩
      intro _ hok
      obtain ⟨url, hurl⟩ := hok
      cases hurl
    | ok url =>
      refine ⟨by simp [Stage, h0, hfs, compilerDownloadURL, h],
        by simp [Stage, h0, hfs, submittedTasks, compilerDownloadURL, h],
        fun he => absurd he hne, ?_,
        fun _ _ => by simp [Stage, h0, hfs, compilerDownloadURL, h]⟩
      intro _ hbad
      obtain ⟨e, he⟩ := hbad
      cases he

/-- C2 at concrete requests for a stack that has no compiler, on the test doubles: one with
an empty AppId, one while no file server is known, one while a file server is known. -/
theorem C2_stage_no_compiler_witness :
    (Stage fakeStagerEnv fakeBBS fakeCompilers
        { fakeRequest with AppId := "", Stack := "no-such-stack" } "reply" fakeWorld).err
      = some ErrMissingAppId ∧
    (Stage fakeStagerEnv fakeBBS fakeCompilers
        { fakeRequest with Stack := "no-such-stack" } "reply"
        { fakeWorld with fileServer := none }).err
      = some ErrNoFileServerPresent ∧
    (Stage fakeStagerEnv fakeBBS fakeCompilers
        { fakeRequest with Stack := "no-such-stack" } "reply" fakeWorld).err
      = some ErrNoCompilerDefined ∧
    submittedTasks (Stage fakeStagerEnv fakeBBS fakeCompilers
        { fakeRequest with Stack := "no-such-stack" } "reply" fakeWorld).effects = [] :=
  ⟨(C2_stage_no_compiler fakeStagerEnv fakeBBS fakeCompilers
      { fakeRequest with AppId := "", Stack := "no-such-stack" } "reply" fakeWorld
      (by decide)).2.2.1 rfl,
    (C2_stage_no_compiler fakeStagerEnv fakeBBS fakeCompilers
      { fakeRequest with Stack := "no-such-stack" } "reply"
      { fakeWorld with fileServer := none } (by decide)).2.2.2.1 (by decide)
      ⟨errorsNew "no file servers", rfl⟩,
    (C2_stage_no_compiler fakeStagerEnv fakeBBS fakeCompilers
      { fakeRequest with Stack := "no-such-stack" } "reply" fakeWorld
      (by decide)).2.2.2.2 (by decide) ⟨"http://fs.example", rfl⟩,
    (C2_stage_no_compiler fakeStagerEnv fakeBBS fakeCompilers
      { fakeRequest with Stack := "no-such-stack" } "reply" fakeWorld (by decide)).2.1⟩

/-- C3: for a request with a non-empty AppId whose stack has a compiler, when a file server is
available (and the file server route table resolves the static and droplet upload routes),
`Stage` submits exactly one task, whose actions are, in order: the download of the compiler,
the download of the application bits, one download per buildpack in request order, the run
action, the upload action and the fetch-result action. There are `N + 5` of them, the
download at position `i + 2` is that of the `i`-th buildpack, and every download extracts. -/
theorem C3_stage_actions {σ : Type} (env : StagerEnv) (stagerBBS : StagerBBS σ)
    (compilers : List (String × String)) (request : StagingRequestFromCC) (replyTo : String)
    (world : σ) (compilerPath fileServerURL path : String) (staticRoute uploadRoute : Route)
    (hAppId : request.AppId ≠ "")
    (hStack : compilers.lookup request.Stack = some compilerPath)
    (hFileServer : (stagerBBS.GetAvailableFileServer world).1 = .ok fileServerURL)
    (hStatic : env.RouteForHandler env.FS_STATIC = some staticRoute)
    (hUpload : env.RouteForHandler env.FS_UPLOAD_DROPLET = some uploadRoute)
    (hPath : env.PathWithParams uploadRoute [("guid", request.AppId)] = .ok path) :
    ∃ task : RunOnce,
      submittedTasks (Stage env stagerBBS compilers request replyTo world).effects = [task] ∧
      task.Actions.length = request.Buildpacks.length + 5 ∧
      task.Actions =
        [ExecutorAction.DownloadAction
            (env.urljoinerJoin fileServerURL [staticRoute.Path, compilerPath])
            (env.NewLinuxSmeltingConfig (request.Buildpacks.map (fun b => b.Key))).CompilerPath
            true,
          ExecutorAction.DownloadAction request.AppBitsDownloadUri
            (env.NewLinuxSmeltingConfig (request.Buildpacks.map (fun b => b.Key))).AppDir true]
        ++ request.Buildpacks.map (fun b => ExecutorAction.DownloadAction b.Url
            ((env.NewLinuxSmeltingConfig
              (request.Buildpacks.map (fun b => b.Key))).BuildpackPath b.Key) true)
        ++ [ExecutorAction.RunAction
            (env.NewLinuxSmeltingConfig (request.Buildpacks.map (fun b => b.Key))).Script
            request.Environment (15 * 60 * 1000000000),
          ExecutorAction.UploadAction
            (env.NewLinuxSmeltingConfig
              (request.Buildpacks.map (fun b => b.Key))).DropletArchivePath
            (env.urljoinerJoin fileServerURL [path]),
          ExecutorAction.FetchResultAction
            (env.NewLinuxSmeltingConfig
              (request.Buildpacks.map (fun b => b.Key))).ResultJsonPath] ∧
      (∀ (i : Nat) (b : Buildpack), request.Buildpacks[i]? = some b →
        task.Actions[i + 2]? = some (ExecutorAction.DownloadAction b.Url
          ((env.NewLinuxSmeltingConfig
            (request.Buildpacks.map (fun b => b.Key))).BuildpackPath b.Key) true)) ∧
      (∀ (source target : String) (extract : Bool),
        ExecutorAction.DownloadAction source target extract ∈ task.Actions → extract = true) := by
  have h0 : ¬ request.AppId.utf8ByteSize = 0 := fun h => hAppId ((utf8ByteSize_eq_zero _).1 h)
  have hOrder : buildpacksOrder request = request.Buildpacks.map (fun b => b.Key) := by
    unfold buildpacksOrder
    generalize request.Buildpacks = bs
    suffices h : ∀ acc : List String,
        List.foldl (fun order (buildpack : Buildpack) => order ++ [buildpack.Key]) acc bs
          = acc ++ bs.map (fun b => b.Key) by simpa using h []
    induction bs with
    | nil => intro acc; simp
    | cons b rest ih => intro acc; simp [ih]
  rcases hfs : stagerBBS.GetAvailableFileServer world with ⟨r, w1⟩
  rw [hfs] at hFileServer
  simp only at hFileServer
  subst hFileServer
  refine ⟨
    { Guid := stringsJoin [request.AppId, request.TaskId] "-"
      Stack := request.Stack
      ReplyTo := replyTo
      FileDescriptors := request.FileDescriptors
      MemoryMB := request.MemoryMB
      DiskMB := request.DiskMB
      Actions :=
        [ExecutorAction.DownloadAction
            (env.urljoinerJoin fileServerURL [staticRoute.Path, compilerPath])
            (env.NewLinuxSmeltingConfig (request.Buildpacks.map (fun b => b.Key))).CompilerPath
            true,
          ExecutorAction.DownloadAction request.AppBitsDownloadUri
            (env.NewLinuxSmeltingConfig (request.Buildpacks.map (fun b => b.Key))).AppDir true]
        ++ request.Buildpacks.map (fun b => ExecutorAction.DownloadAction b.Url
            ((env.NewLinuxSmeltingConfig
              (request.Buildpacks.map (fun b => b.Key))).BuildpackPath b.Key) true)
        ++ [ExecutorAction.RunAction
            (env.NewLinuxSmeltingConfig (request.Buildpacks.map (fun b => b.Key))).Script
            request.Environment (15 * 60 * 1000000000),
          ExecutorAction.UploadAction
            (env.NewLinuxSmeltingConfig
              (request.Buildpacks.map (fun b => b.Key))).DropletArchivePath
            (env.urljoinerJoin fileServerURL [path]),
          ExecutorAction.FetchResultAction
            (env.NewLinuxSmeltingConfig
              (request.Buildpacks.map (fun b => b.Key))).ResultJsonPath]
      Log := { Guid := request.AppId, SourceName := "STG" } },
    ?_, ?_, rfl, ?_, ?_⟩
  · simp only [Stage, h0, if_false, hfs, compilerDownloadURL, hStack, hStatic, dropletUploadURL,
      hUpload, hPath, hOrder, appendBuildpackDownloads_eq, timeMinute]
    simp [submittedTasks]
  · simp
  · intro i b hb
    have hlen : i < request.Buildpacks.length := by
      rcases List.getElem?_eq_some_iff.1 hb with ⟨hi, _⟩
      exact hi
    simp only [List.cons_append, List.nil_append, List.append_assoc]
    rw [show i + 2 = (i + 1) + 1 from rfl, List.getElem?_cons_succ, List.getElem?_cons_succ]
    rw [List.getElem?_append_left (by simpa using hlen)]
    simp [List.getElem?_map, hb]
  · intro source target extract hmem
    simp only [List.cons_append, List.nil_append, List.mem_append, List.mem_cons, List.mem_map,
      List.mem_singleton, List.not_mem_nil, or_false] at hmem
    rcases hmem with h | h | ⟨b, _, h⟩ | h | h | h
    · injection h with _ _ he
    · injection h with _ _ he
    · injection h with _ _ he; exact he.symm
    · cases h
    · cases h
    · cases h

/-- C3 at a concrete request with two buildpacks, on the test doubles: seven actions. -/
theorem C3_stage_actions_witness :
    ∃ task : RunOnce,
      submittedTasks (Stage fakeStagerEnv fakeBBS fakeCompilers fakeRequest "reply"
        fakeWorld).effects = [task] ∧
      task.Actions.length = 2 + 5 ∧
      task.Actions =
        [ExecutorAction.DownloadAction "http://fs.example/static/lucid64-compiler.tgz"
            "/tmp/compiler" true,
          ExecutorAction.DownloadAction "http://cc/app-bits" "/app" true,
          ExecutorAction.DownloadAction "http://cc/ruby.zip" "/tmp/buildpacks/ruby" true,
          ExecutorAction.DownloadAction "http://cc/go.zip" "/tmp/buildpacks/go" true,
          ExecutorAction.RunAction "/tmp/compiler/run" [("VCAP", "yes")] 900000000000,
          ExecutorAction.UploadAction "/tmp/droplet.tgz" "http://fs.example/droplet/app",
          ExecutorAction.FetchResultAction "/tmp/result.json"] := by
  obtain ⟨task, hsub, hlen, hactions, _, _⟩ :=
    C3_stage_actions fakeStagerEnv fakeBBS fakeCompilers fakeRequest "reply" fakeWorld
      "lucid64-compiler.tgz" "http://fs.example" "/droplet/app"
      ⟨"static", "GET", "/static/"⟩ ⟨"upload_droplet", "POST", "/droplet/:guid"⟩
      (by decide) (by decide) rfl rfl rfl rfl
  refine ⟨task, hsub, hlen, ?_⟩
  rw [hactions]
  decide

/-- C4, as stated, fails: the requests with (AppId, TaskId) equal to ("a-b", "c") and to
("a", "b-c") are both valid and differ, yet both submit a task with Guid "a-b-c". -/
theorem C4_counterexample :
    (("a-b", "c") : String × String) ≠ ("a", "b-c") ∧
    (submittedTasks (Stage fakeStagerEnv fakeBBS fakeCompilers
        { fakeRequest with AppId := "a-b", TaskId := "c" } "reply" fakeWorld).effects).map
      (fun task => task.Guid) = ["a-b-c"] ∧
    (submittedTasks (Stage fakeStagerEnv fakeBBS fakeCompilers
        { fakeRequest with AppId := "a", TaskId := "b-c" } "reply" fakeWorld).effects).map
      (fun task => task.Guid) = ["a-b-c"] := by
  decide

/-- C4, amended: the Guid of a submitted task is `AppId-TaskId`, so equal (AppId, TaskId) pairs
give equal Guids, and different pairs give different Guids whenever the two AppIds have the
same length or neither AppId contains the separator `-`. -/
theorem C4_stage_guid {σ : Type} (env1 env2 : StagerEnv) (bbs1 bbs2 : StagerBBS σ)
    (compilers1 compilers2 : List (String × String)) (request1 request2 : StagingRequestFromCC)
    (replyTo1 replyTo2 : String) (world1 world2 : σ) (task1 task2 : RunOnce)
    (h1 : task1 ∈ submittedTasks (Stage env1 bbs1 compilers1 request1 replyTo1 world1).effects)
    (h2 : task2 ∈ submittedTasks (Stage env2 bbs2 compilers2 request2 replyTo2 world2).effects) :
    task1.Guid = request1.AppId ++ "-" ++ request1.TaskId ∧
    ((request1.AppId, request1.TaskId) = (request2.AppId, request2.TaskId) →
      task1.Guid = task2.Guid) ∧
    ((request1.AppId.length = request2.AppId.length ∨
        ('-' ∉ request1.AppId.data ∧ '-' ∉ request2.AppId.data)) →
      (request1.AppId, request1.TaskId) ≠ (request2.AppId, request2.TaskId) →
      task1.Guid ≠ task2.Guid) := by
  have g1 := submittedTasks_guid env1 bbs1 compilers1 request1 replyTo1 world1 task1 h1
  have g2 := submittedTasks_guid env2 bbs2 compilers2 request2 replyTo2 world2 task2 h2
  refine ⟨g1, ?_, ?_⟩
  · intro hpair
    simp only [Prod.mk.injEq] at hpair
    rw [g1, g2, hpair.1, hpair.2]
  · intro hshape hne hguid
    apply hne
    rw [g1, g2] at hguid
    have hdata := congrArg String.data hguid
    simp only [String.data_append] at hdata
    simp only [List.append_assoc, List.singleton_append] at hdata
    have hsplit : request1.AppId.data = request2.AppId.data ∧
        request1.TaskId.data = request2.TaskId.data := by
      rcases hshape with hlen | ⟨hd1, hd2⟩
      · have hlen2 : request1.AppId.data.length = request2.AppId.data.length := hlen
        have := List.append_inj hdata hlen2
        exact ⟨this.1, by simpa using this.2⟩
      · exact dash_split_unique _ _ _ _ hd1 hd2 hdata
    simp only [Prod.mk.injEq]
    exact ⟨String.ext hsplit.1, String.ext hsplit.2⟩

/-- C4 at two concrete requests of one application with different task identities. -/
theorem C4_stage_guid_witness :
    ∃ task1 task2 : RunOnce,
      task1 ∈ submittedTasks (Stage fakeStagerEnv fakeBBS fakeCompilers fakeRequest "reply"
        fakeWorld).effects ∧
      task2 ∈ submittedTasks (Stage fakeStagerEnv fakeBBS fakeCompilers
        { fakeRequest with TaskId := "other" } "reply" fakeWorld).effects ∧
      task1.Guid = "app-task" ∧ task1.Guid ≠ task2.Guid := by
  have hs1 : submittedTasks (Stage fakeStagerEnv fakeBBS fakeCompilers fakeRequest "reply"
      fakeWorld).effects ≠ [] := by decide
  have hs2 : submittedTasks (Stage fakeStagerEnv fakeBBS fakeCompilers
      { fakeRequest with TaskId := "other" } "reply" fakeWorld).effects ≠ [] := by decide
  obtain ⟨task1, h1⟩ := List.exists_mem_of_ne_nil _ hs1
  obtain ⟨task2, h2⟩ := List.exists_mem_of_ne_nil _ hs2
  have h := C4_stage_guid fakeStagerEnv fakeStagerEnv fakeBBS fakeBBS fakeCompilers fakeCompilers
    fakeRequest { fakeRequest with TaskId := "other" } "reply" "reply" fakeWorld fakeWorld
    task1 task2 h1 h2
  exact ⟨task1, task2, h1, h2, h.1, h.2.2 (Or.inl (by decide)) (by decide)⟩

/-! ## Lemmas on the dispatcher -/

theorem wrapInt64_of_fits (x : Int) (h1 : minDuration ≤ x) (h2 : x ≤ maxDuration) :
    wrapInt64 x = x := by
  unfold wrapInt64 minDuration maxDuration at *
  omega

/-- Truncation to 64 bits gives a value in range. -/
theorem wrapInt64_range (x : Int) : minDuration ≤ wrapInt64 x ∧ wrapInt64 x ≤ maxDuration := by
  unfold wrapInt64 minDuration maxDuration
  omega

/-- The method `Time.Sub` is exact when the difference fits in a `time.Duration`. -/
theorem timeSub_of_fits (t u : Int) (h1 : minDuration ≤ t - u) (h2 : t - u ≤ maxDuration) :
    timeSub t u = t - u := by
  unfold timeSub
  rw [wrapInt64_of_fits _ h1 h2]
  simp

/-- The method `Time.Sub` saturates at the smallest `time.Duration`. -/
theorem timeSub_below (t u : Int) (h : t - u < minDuration) : timeSub t u = minDuration := by
  unfold timeSub
  have hr := wrapInt64_range (t - u)
  have hne : ¬ (u + wrapInt64 (t - u) = t) := by omega
  have hlt : t < u := by unfold minDuration at h; omega
  simp [hne, hlt]

/-- The method `Time.Sub` saturates at the largest `time.Duration`. -/
theorem timeSub_above (t u : Int) (h : maxDuration < t - u) : timeSub t u = maxDuration := by
  unfold timeSub
  have hr := wrapInt64_range (t - u)
  have hne : ¬ (u + wrapInt64 (t - u) = t) := by omega
  have hlt : ¬ t < u := by unfold maxDuration at h; omega
  simp [hne, hlt]

theorem calls_append (a b : List Effect) : calls (a ++ b) = calls a ++ calls b := by
  simp [calls]

theorem countersIncremented_append (a b : List Effect) :
    countersIncremented (a ++ b) = countersIncremented a ++ countersIncremented b := by
  simp [countersIncremented]

theorem durationsSent_append (a b : List Effect) :
    durationsSent (a ++ b) = durationsSent a ++ durationsSent b := by
  simp [durationsSent]

theorem outcomeMetrics_calls (task : Task) (d : Int) : calls (outcomeMetrics task d) = [] := by
  unfold outcomeMetrics
  split <;> simp [calls, Effect.call?]

theorem outcomeMetrics_counters (task : Task) (d : Int) :
    countersIncremented (outcomeMetrics task d) =
      [if task.Failed then stagingFailureCounter else stagingSuccessCounter] := by
  unfold outcomeMetrics
  split <;> simp [countersIncremented, Effect.counter?, *]

theorem outcomeMetrics_durations (task : Task) (d : Int) :
    durationsSent (outcomeMetrics task d) =
      [(if task.Failed then stagingFailureDuration else stagingSuccessDuration, d)] := by
  unfold outcomeMetrics
  split <;> simp [durationsSent, Effect.duration?, *]

/-- What `stagingComplete` does: one call of `apiClient.StagingComplete`, whose error it returns. -/
theorem stagingComplete_spec {σ : Type} (o : Outbox σ) (payload : Payload) (w : σ) :
    (stagingComplete o payload w).err = (o.apiClient.StagingComplete payload w).1 ∧
    (stagingComplete o payload w).world = (o.apiClient.StagingComplete payload w).2 ∧
    calls (stagingComplete o payload w).effects =
      [.stagingComplete payload (o.apiClient.StagingComplete payload w).1.isNone] ∧
    countersIncremented (stagingComplete o payload w).effects = [] ∧
    durationsSent (stagingComplete o payload w).effects = [] := by
  unfold stagingComplete
  rcases h : o.apiClient.StagingComplete payload w with ⟨e, w1⟩
  cases e <;>
    simp [calls, Effect.call?, countersIncremented, Effect.counter?, durationsSent,
      Effect.duration?]

/-- What `deliverByDomain` does: nothing but fail when the response cannot be built or
marshalled, and otherwise exactly one call of `apiClient.StagingComplete` with the marshalled
response, whose error it returns. It emits no metric. -/
theorem deliverByDomain_spec {σ : Type} (env : OutboxEnv) (o : Outbox σ) (task : Task) (w : σ) :
    countersIncremented (deliverByDomain env o task w).effects = [] ∧
    durationsSent (deliverByDomain env o task w).effects = [] ∧
    ((payloadOf env task = none ∧ calls (deliverByDomain env o task w).effects = [] ∧
        (deliverByDomain env o task w).world = w ∧
        (deliverByDomain env o task w).err ≠ none) ∨
      (∃ payload, payloadOf env task = some payload ∧
        calls (deliverByDomain env o task w).effects =
          [.stagingComplete payload (o.apiClient.StagingComplete payload w).1.isNone] ∧
        (deliverByDomain env o task w).world = (o.apiClient.StagingComplete payload w).2 ∧
        (deliverByDomain env o task w).err = (o.apiClient.StagingComplete payload w).1)) := by
  unfold deliverByDomain payloadOf
  by_cases hd : task.Domain = env.TaskDomain
  · simp only [hd, if_true]
    unfold deliverResponse
    rcases hb : buildResponse task with e | message
    · simp [calls, countersIncremented, durationsSent]
    · rcases hm : env.marshalResponse message with e | payload
      · simp [hm, calls, Effect.call?, countersIncremented, Effect.counter?, durationsSent,
          Effect.duration?]
      · have h := stagingComplete_spec o payload w
        simp [hm, h.1, h.2.1, h.2.2.1, h.2.2.2.1, h.2.2.2.2]
  · simp only [hd, if_false]
    unfold deliverDockerResponse
    rcases hb : buildDockerResponse task with e | response
    · simp [calls, countersIncremented, durationsSent]
    · rcases hm : env.marshalDockerResponse response with e | payload
      · simp [hm, calls, Effect.call?, countersIncremented, Effect.counter?, durationsSent,
          Effect.duration?]
      · have h := stagingComplete_spec o payload w
        simp [hm, h.1, h.2.1, h.2.2.1, h.2.2.2.1, h.2.2.2.2]

/-- A task of an unrecognized domain is ignored. -/
theorem handle_unrecognized {σ : Type} (env : OutboxEnv) (o : Outbox σ) (task : Task) (w : σ)
    (h : task.Domain ≠ env.TaskDomain ∧ task.Domain ≠ env.DockerTaskDomain) :
    handleCompletedStagingTask env o task w = (w, []) := by
  unfold handleCompletedStagingTask
  simp [h]

/-- The run of the dispatcher when `ResolvingTask` fails. -/
theorem handle_resolving_failed {σ : Type} (env : OutboxEnv) (o : Outbox σ) (task : Task)
    (w : σ) (h : task.Domain = env.TaskDomain ∨ task.Domain = env.DockerTaskDomain)
    (err : GoError)
    (hr : (o.bbs.ResolvingTask task.Guid (o.timeProvider.Time w).2).1 = some err) :
    handleCompletedStagingTask env o task w =
      ((o.bbs.ResolvingTask task.Guid (o.timeProvider.Time w).2).2,
        outcomeMetrics task (timeSub (o.timeProvider.Time w).1 (timeUnix 0 task.CreatedAt)) ++
          [.resolvingTask task.Guid (some err), .log .error "resolving-failed"]) := by
  have hdom : ¬ (task.Domain ≠ env.TaskDomain ∧ task.Domain ≠ env.DockerTaskDomain) := by
    rcases h with h | h <;> simp [h]
  unfold handleCompletedStagingTask
  rw [if_neg hdom]
  rcases ht : o.timeProvider.Time w with ⟨now, w1⟩
  rw [ht] at hr
  simp only at hr ⊢
  rcases hres : o.bbs.ResolvingTask task.Guid w1 with ⟨re, w2⟩
  rw [hres] at hr
  simp only at hr
  subst hr
  rfl

/-- The run of the dispatcher when `ResolvingTask` succeeds and the delivery fails. -/
theorem handle_delivery_failed {σ : Type} (env : OutboxEnv) (o : Outbox σ) (task : Task)
    (w : σ) (h : task.Domain = env.TaskDomain ∨ task.Domain = env.DockerTaskDomain)
    (err : GoError)
    (hr : (o.bbs.ResolvingTask task.Guid (o.timeProvider.Time w).2).1 = none)
    (hd : (deliverByDomain env o task
      (o.bbs.ResolvingTask task.Guid (o.timeProvider.Time w).2).2).err = some err) :
    handleCompletedStagingTask env o task w =
      ((deliverByDomain env o task
          (o.bbs.ResolvingTask task.Guid (o.timeProvider.Time w).2).2).world,
        outcomeMetrics task (timeSub (o.timeProvider.Time w).1 (timeUnix 0 task.CreatedAt)) ++
          [.resolvingTask task.Guid none, .log .info "resolving-success"] ++
          (deliverByDomain env o task
            (o.bbs.ResolvingTask task.Guid (o.timeProvider.Time w).2).2).effects ++
          [.log .error "deliver-response-failed",
            .counterIncrement stagingFailedToResolveCounter]) := by
  have hdom : ¬ (task.Domain ≠ env.TaskDomain ∧ task.Domain ≠ env.DockerTaskDomain) := by
    rcases h with h | h <;> simp [h]
  unfold handleCompletedStagingTask
  rw [if_neg hdom]
  rcases ht : o.timeProvider.Time w with ⟨now, w1⟩
  rw [ht] at hr hd
  simp only at hr hd ⊢
  rcases hres : o.bbs.ResolvingTask task.Guid w1 with ⟨re, w2⟩
  rw [hres] at hr hd
  simp only at hr hd
  subst hr
  simp only [hd]

/-- The run of the dispatcher when `ResolvingTask` and the delivery succeed. -/
theorem handle_delivered {σ : Type} (env : OutboxEnv) (o : Outbox σ) (task : Task)
    (w : σ) (h : task.Domain = env.TaskDomain ∨ task.Domain = env.DockerTaskDomain)
    (hr : (o.bbs.ResolvingTask task.Guid (o.timeProvider.Time w).2).1 = none)
    (hd : (deliverByDomain env o task
      (o.bbs.ResolvingTask task.Guid (o.timeProvider.Time w).2).2).err = none) :
    handleCompletedStagingTask env o task w =
      ((o.bbs.ResolveTask task.Guid (deliverByDomain env o task
          (o.bbs.ResolvingTask task.Guid (o.timeProvider.Time w).2).2).world).2,
        outcomeMetrics task (timeSub (o.timeProvider.Time w).1 (timeUnix 0 task.CreatedAt)) ++
          [.resolvingTask task.Guid none, .log .info "resolving-success"] ++
          (deliverByDomain env o task
            (o.bbs.ResolvingTask task.Guid (o.timeProvider.Time w).2).2).effects ++
          [.resolveTask task.Guid (o.bbs.ResolveTask task.Guid (deliverByDomain env o task
              (o.bbs.ResolvingTask task.Guid (o.timeProvider.Time w).2).2).world).1,
            .log (if (o.bbs.ResolveTask task.Guid (deliverByDomain env o task
              (o.bbs.ResolvingTask task.Guid (o.timeProvider.Time w).2).2).world).1 = none
              then .info else .error)
              (if (o.bbs.ResolveTask task.Guid (deliverByDomain env o task
              (o.bbs.ResolvingTask task.Guid (o.timeProvider.Time w).2).2).world).1 = none
              then "resolve-success" else "resolve-failed")]) := by
  have hdom : ¬ (task.Domain ≠ env.TaskDomain ∧ task.Domain ≠ env.DockerTaskDomain) := by
    rcases h with h | h <;> simp [h]
  unfold handleCompletedStagingTask
  rw [if_neg hdom]
  rcases ht : o.timeProvider.Time w with ⟨now, w1⟩
  rw [ht] at hr hd
  simp only at hr hd ⊢
  rcases hres : o.bbs.ResolvingTask task.Guid w1 with ⟨re, w2⟩
  rw [hres] at hr hd
  simp only at hr hd
  subst hr
  simp only [hd]
  rcases hfin : o.bbs.ResolveTask task.Guid (deliverByDomain env o task w2).world with ⟨fe, w3⟩
  cases fe <;> simp

/-- The calls the dispatcher makes for a task of a recognized domain, by the outcome of each
step. -/
theorem handle_calls {σ : Type} (env : OutboxEnv) (o : Outbox σ) (task : Task) (w : σ)
    (h : task.Domain = env.TaskDomain ∨ task.Domain = env.DockerTaskDomain) :
    ((resolvingStep o task w).1 ≠ none ∧
      calls (handleCompletedStagingTask env o task w).2 = [.resolvingTask task.Guid false] ∧
      countersIncremented (handleCompletedStagingTask env o task w).2 =
        [if task.Failed then stagingFailureCounter else stagingSuccessCounter] ∧
      (handleCompletedStagingTask env o task w).1 = (resolvingStep o task w).2) ∨
    ((resolvingStep o task w).1 = none ∧ (deliveryStep env o task w).err ≠ none ∧
      payloadOf env task = none ∧
      calls (handleCompletedStagingTask env o task w).2 = [.resolvingTask task.Guid true] ∧
      countersIncremented (handleCompletedStagingTask env o task w).2 =
        [if task.Failed then stagingFailureCounter else stagingSuccessCounter,
          stagingFailedToResolveCounter] ∧
      (handleCompletedStagingTask env o task w).1 = (resolvingStep o task w).2) ∨
    (∃ payload, (resolvingStep o task w).1 = none ∧ (deliveryStep env o task w).err ≠ none ∧
      payloadOf env task = some payload ∧
      calls (handleCompletedStagingTask env o task w).2 =
        [.resolvingTask task.Guid true, .stagingComplete payload false] ∧
      countersIncremented (handleCompletedStagingTask env o task w).2 =
        [if task.Failed then stagingFailureCounter else stagingSuccessCounter,
          stagingFailedToResolveCounter] ∧
      (handleCompletedStagingTask env o task w).1 =
        (o.apiClient.StagingComplete payload (resolvingStep o task w).2).2) ∨
    (∃ payload, (resolvingStep o task w).1 = none ∧ (deliveryStep env o task w).err = none ∧
      payloadOf env task = some payload ∧
      calls (handleCompletedStagingTask env o task w).2 =
        [.resolvingTask task.Guid true, .stagingComplete payload true,
          .resolveTask task.Guid
            (o.bbs.ResolveTask task.Guid (deliveryStep env o task w).world).1.isNone] ∧
      countersIncremented (handleCompletedStagingTask env o task w).2 =
        [if task.Failed then stagingFailureCounter else stagingSuccessCounter] ∧
      (handleCompletedStagingTask env o task w).1 =
        (o.bbs.ResolveTask task.Guid
          (o.apiClient.StagingComplete payload (resolvingStep o task w).2).2).2) := by
  rcases hr : (resolvingStep o task w).1 with _ | err
  · have hspec := deliverByDomain_spec env o task (resolvingStep o task w).2
    rcases hd : (deliveryStep env o task w).err with _ | derr
    · have hrun := handle_delivered env o task w h hr hd
      rcases hspec with ⟨hc, _, ⟨_, _, _, hne⟩ | ⟨payload, hp, hcalls, hworld, herr⟩⟩
      · exact absurd hd hne
      · right; right; right
        refine ⟨payload, rfl, rfl, hp, ?_, ?_, ?_⟩
        · rw [hrun]
          have hok : (o.apiClient.StagingComplete payload (resolvingStep o task w).2).1 = none := by
            rw [← herr]; exact hd
          simp only [calls_append, outcomeMetrics_calls, hcalls, hok]
          simp [calls, Effect.call?]
        · rw [hrun]
          simp only [countersIncremented_append, outcomeMetrics_counters, hc]
          simp [countersIncremented, Effect.counter?]
        · rw [hrun, hworld]
    · have hrun := handle_delivery_failed env o task w h derr hr hd
      rcases hspec with ⟨hc, _, ⟨hp, hcalls, hworld, _⟩ | ⟨payload, hp, hcalls, hworld, herr⟩⟩
      · right; left
        refine ⟨rfl, by simp, hp, ?_, ?_, ?_⟩
        · rw [hrun]
          simp only [calls_append, outcomeMetrics_calls, hcalls]
          simp [calls, Effect.call?]
        · rw [hrun]
          simp only [countersIncremented_append, outcomeMetrics_counters, hc]
          simp [countersIncremented, Effect.counter?]
        · rw [hrun, hworld]
      · right; right; left
        refine ⟨payload, rfl, by simp, hp, ?_, ?_, ?_⟩
        · rw [hrun]
          have hok : (o.apiClient.StagingComplete payload (resolvingStep o task w).2).1
              = some derr := by
            rw [← herr]; exact hd
          simp only [calls_append, outcomeMetrics_calls, hcalls, hok]
          simp [calls, Effect.call?]
        · rw [hrun]
          simp only [countersIncremented_append, outcomeMetrics_counters, hc]
          simp [countersIncremented, Effect.counter?]
        · rw [hrun, hworld]
  · have hrun := handle_resolving_failed env o task w h err hr
    left
    refine ⟨by simp, ?_, ?_, ?_⟩
    · rw [hrun]
      simp only [calls_append, outcomeMetrics_calls]
      simp [calls, Effect.call?]
    · rw [hrun]
      simp only [countersIncremented_append, outcomeMetrics_counters]
      simp [countersIncremented, Effect.counter?]
    · rw [hrun]

/-! ## Claims on the dispatcher -/

/-- C9: for a task of a recognized domain, `ResolveTask` is called if and only if
`ResolvingTask` succeeded and the translation and delivery of the response succeeded. When
`ResolvingTask` succeeds and translation or delivery fails, `StagingFailedToResolve` is
incremented exactly once and `ResolveTask` is not called. The calls made are one of:
a failed `ResolvingTask`; a successful `ResolvingTask`; a successful `ResolvingTask` and a
failed delivery; a successful `ResolvingTask`, a successful delivery and `ResolveTask`, in
that order. So `ResolveTask` is never called before or without a successful
`ResolvingTask`. -/
theorem C9_resolve_after_resolving {σ : Type} (env : OutboxEnv) (o : Outbox σ) (task : Task)
    (w : σ) (h : task.Domain = env.TaskDomain ∨ task.Domain = env.DockerTaskDomain) :
    ((∃ ok, Call.resolveTask task.Guid ok ∈ calls (handleCompletedStagingTask env o task w).2) ↔
      ((resolvingStep o task w).1 = none ∧ (deliveryStep env o task w).err = none)) ∧
    ((resolvingStep o task w).1 = none → (deliveryStep env o task w).err ≠ none →
      (countersIncremented (handleCompletedStagingTask env o task w).2).count
          stagingFailedToResolveCounter = 1 ∧
      (calls (handleCompletedStagingTask env o task w).2).countP Call.isResolveTask = 0) ∧
    (calls (handleCompletedStagingTask env o task w).2 = [.resolvingTask task.Guid false] ∨
      calls (handleCompletedStagingTask env o task w).2 = [.resolvingTask task.Guid true] ∨
      (∃ payload, calls (handleCompletedStagingTask env o task w).2 =
        [.resolvingTask task.Guid true, .stagingComplete payload false]) ∨
      (∃ payload ok, calls (handleCompletedStagingTask env o task w).2 =
        [.resolvingTask task.Guid true, .stagingComplete payload true,
          .resolveTask task.Guid ok])) ∧
    (∀ (before after : List Call) (call : Call),
      calls (handleCompletedStagingTask env o task w).2 = before ++ call :: after →
      call.isResolveTask = true →
      Call.resolvingTask task.Guid true ∈ before ∧ after = []) := by
  have hne : stagingFailedToResolveCounter ≠ stagingFailureCounter ∧
      stagingFailedToResolveCounter ≠ stagingSuccessCounter := by decide
  rcases handle_calls env o task w h with
    ⟨hr, hc, hk, _⟩ | ⟨hr, hd, _, hc, hk, _⟩ | ⟨p, hr, hd, _, hc, hk, _⟩ | ⟨p, hr, hd, _, hc, hk, _⟩
  · refine ⟨?_, ?_, Or.inl hc, ?_⟩
    · rw [hc]; simp [hr]
    · intro hr2; exact absurd hr2 hr
    · intro before after call hsplit hcall
      rw [hc] at hsplit
      rcases before with _ | ⟨b, _ | ⟨b2, before⟩⟩ <;> simp at hsplit
      rw [← hsplit.1] at hcall
      simp [Call.isResolveTask] at hcall
  · refine ⟨?_, ?_, Or.inr (Or.inl hc), ?_⟩
    · rw [hc]; simp [hd]
    · intro _ _
      rw [hc, hk]
      refine ⟨?_, by simp [Call.isResolveTask]⟩
      split <;> simp [List.count_cons, hne.1.symm, hne.2.symm]
    · intro before after call hsplit hcall
      rw [hc] at hsplit
      rcases before with _ | ⟨b, _ | ⟨b2, before⟩⟩ <;> simp at hsplit
      rw [← hsplit.1] at hcall
      simp [Call.isResolveTask] at hcall
  · refine ⟨?_, ?_, Or.inr (Or.inr (Or.inl ⟨p, hc⟩)), ?_⟩
    · rw [hc]; simp [hd]
    · intro _ _
      rw [hc, hk]
      refine ⟨?_, by simp [Call.isResolveTask]⟩
      split <;> simp [List.count_cons, hne.1.symm, hne.2.symm]
    · intro before after call hsplit hcall
      rw [hc] at hsplit
      rcases before with _ | ⟨b, _ | ⟨b2, _ | ⟨b3, before⟩⟩⟩ <;> simp at hsplit
      · rw [← hsplit.1] at hcall
        simp [Call.isResolveTask] at hcall
      · rw [← hsplit.2.1] at hcall
        simp [Call.isResolveTask] at hcall
  · refine ⟨?_, ?_, Or.inr (Or.inr (Or.inr ⟨p, _, hc⟩)), ?_⟩
    · rw [hc]; simp [hr, hd]
    · intro _ hd2; exact absurd hd hd2
    · intro before after call hsplit hcall
      rw [hc] at hsplit
      rcases before with _ | ⟨b, _ | ⟨b2, _ | ⟨b3, _ | ⟨b4, before⟩⟩⟩⟩ <;> simp at hsplit
      · rw [← hsplit.1] at hcall
        simp [Call.isResolveTask] at hcall
      · rw [← hsplit.2.1] at hcall
        simp [Call.isResolveTask] at hcall
      · simp [← hsplit.1, ← hsplit.2.1, hsplit.2.2.2]

/-- C9 at a concrete successful task, on the test doubles. -/
theorem C9_resolve_after_resolving_witness :
    ((∃ ok, Call.resolveTask fakeTask.Guid ok ∈
        calls (handleCompletedStagingTask fakeOutboxEnv fakeOutbox fakeTask fakeWorld).2) ↔
      ((resolvingStep fakeOutbox fakeTask fakeWorld).1 = none ∧
        (deliveryStep fakeOutboxEnv fakeOutbox fakeTask fakeWorld).err = none)) ∧
    calls (handleCompletedStagingTask fakeOutboxEnv fakeOutbox fakeTask fakeWorld).2 =
      [.resolvingTask "the-task-guid" true,
        .stagingComplete "the-app-id/the-task-id/bp1/" true,
        .resolveTask "the-task-guid" true] :=
  ⟨(C9_resolve_after_resolving fakeOutboxEnv fakeOutbox fakeTask fakeWorld
      (Or.inl (by decide))).1, by decide⟩

/-- C10, as stated, fails on the last clause: for a task created at the smallest `int64`
instant and a clock reading one millisecond after the epoch, the duration sent is the largest
`time.Duration`, not `now - task.CreatedAt`. -/
theorem C10_counterexample :
    fakeOldTask.Domain = fakeOutboxEnv.TaskDomain ∧
    durationsSent (handleCompletedStagingTask fakeOutboxEnv fakeOutbox fakeOldTask fakeWorld).2
      = [(stagingSuccessDuration, 9223372036854775807)] ∧
    (fakeOutbox.timeProvider.Time fakeWorld).1 - fakeOldTask.CreatedAt = 9223372036855775808 ∧
    durationsSent (handleCompletedStagingTask fakeOutboxEnv fakeOutbox fakeOldTask fakeWorld).2
      ≠ [(stagingSuccessDuration,
          (fakeOutbox.timeProvider.Time fakeWorld).1 - fakeOldTask.CreatedAt)] := by
  decide

/-- C10, amended: for a task of a recognized domain the effects of the dispatcher start with
exactly one outcome metric pair, followed by the `ResolvingTask` call, whatever the
collaborators answer: the failure counter and failure duration when `task.Failed`, the
success duration and success counter otherwise, and no other outcome metric later. The
duration sent is `now - task.CreatedAt` in nanoseconds whenever that difference fits in a
`time.Duration`, and the nearest bound of `time.Duration` otherwise. -/
theorem C10_outcome_metrics {σ : Type} (env : OutboxEnv) (o : Outbox σ) (task : Task) (w : σ)
    (h : task.Domain = env.TaskDomain ∨ task.Domain = env.DockerTaskDomain) :
    (∃ (err : Option GoError) (later : List Effect),
      (handleCompletedStagingTask env o task w).2 =
        (if task.Failed then
          [Effect.counterIncrement "StagingRequestsFailed",
            Effect.durationSend "StagingRequestFailedDuration" (stagingDuration o task w)]
        else
          [Effect.durationSend "StagingRequestSucceededDuration" (stagingDuration o task w),
            Effect.counterIncrement "StagingRequestsSucceeded"])
        ++ Effect.resolvingTask task.Guid err :: later) ∧
    durationsSent (handleCompletedStagingTask env o task w).2 =
      [(if task.Failed then "StagingRequestFailedDuration"
        else "StagingRequestSucceededDuration", stagingDuration o task w)] ∧
    (countersIncremented (handleCompletedStagingTask env o task w).2).count
      "StagingRequestsFailed" = (if task.Failed then 1 else 0) ∧
    (countersIncremented (handleCompletedStagingTask env o task w).2).count
      "StagingRequestsSucceeded" = (if task.Failed then 0 else 1) ∧
    (minDuration ≤ (o.timeProvider.Time w).1 - task.CreatedAt →
      (o.timeProvider.Time w).1 - task.CreatedAt ≤ maxDuration →
      stagingDuration o task w = (o.timeProvider.Time w).1 - task.CreatedAt) ∧
    ((o.timeProvider.Time w).1 - task.CreatedAt < minDuration →
      stagingDuration o task w = minDuration) ∧
    (maxDuration < (o.timeProvider.Time w).1 - task.CreatedAt →
      stagingDuration o task w = maxDuration) := by
  have hunix : timeUnix 0 task.CreatedAt = task.CreatedAt := by simp [timeUnix]
  have hmetrics : outcomeMetrics task (stagingDuration o task w) =
      (if task.Failed then
          [Effect.counterIncrement "StagingRequestsFailed",
            Effect.durationSend "StagingRequestFailedDuration" (stagingDuration o task w)]
        else
          [Effect.durationSend "StagingRequestSucceededDuration" (stagingDuration o task w),
            Effect.counterIncrement "StagingRequestsSucceeded"]) := by
    unfold outcomeMetrics
    split <;> rfl
  have hshape : ∃ (err : Option GoError) (later : List Effect),
      (handleCompletedStagingTask env o task w).2 =
        outcomeMetrics task (stagingDuration o task w) ++
          Effect.resolvingTask task.Guid err :: later ∧
      durationsSent later = [] := by
    have hspec := deliverByDomain_spec env o task (resolvingStep o task w).2
    rcases hr : (resolvingStep o task w).1 with _ | err
    · rcases hd : (deliveryStep env o task w).err with _ | derr
      · rw [handle_delivered env o task w h hr hd]
        simp only [List.append_assoc, List.cons_append, List.nil_append]
        refine ⟨_, _, rfl, ?_⟩
        have hds := hspec.2.1
        unfold durationsSent at hds
        simp [durationsSent, Effect.duration?, hds]
      · rw [handle_delivery_failed env o task w h derr hr hd]
        simp only [List.append_assoc, List.cons_append, List.nil_append]
        refine ⟨_, _, rfl, ?_⟩
        have hds := hspec.2.1
        unfold durationsSent at hds
        simp [durationsSent, Effect.duration?, hds]
    · rw [handle_resolving_failed env o task w h err hr]
      refine ⟨_, _, rfl, ?_⟩
      simp [durationsSent, Effect.duration?]
  have hcounters : countersIncremented (handleCompletedStagingTask env o task w).2 =
        [if task.Failed then stagingFailureCounter else stagingSuccessCounter] ∨
      countersIncremented (handleCompletedStagingTask env o task w).2 =
        [if task.Failed then stagingFailureCounter else stagingSuccessCounter,
          stagingFailedToResolveCounter] := by
    rcases handle_calls env o task w h with
      ⟨_, _, hk, _⟩ | ⟨_, _, _, _, hk, _⟩ | ⟨p, _, _, _, _, hk, _⟩ | ⟨p, _, _, _, _, hk, _⟩
    · exact Or.inl hk
    · exact Or.inr hk
    · exact Or.inr hk
    · exact Or.inl hk
  obtain ⟨err, later, hrun, hlater⟩ := hshape
  refine ⟨⟨err, later, by rw [hrun, hmetrics]⟩, ?_, ?_, ?_, ?_, ?_, ?_⟩
  · rw [hrun, durationsSent_append, outcomeMetrics_durations]
    have : durationsSent (Effect.resolvingTask task.Guid err :: later) = durationsSent later := by
      simp [durationsSent, Effect.duration?]
    rw [this, hlater]
    cases task.Failed <;> rfl
  · rcases hcounters with hk | hk <;> rw [hk] <;> cases task.Failed <;> decide
  · rcases hcounters with hk | hk <;> rw [hk] <;> cases task.Failed <;> decide
  · intro h1 h2
    show timeSub _ _ = _
    rw [hunix]
    exact timeSub_of_fits _ _ h1 h2
  · intro h1
    show timeSub _ _ = _
    rw [hunix]
    exact timeSub_below _ _ h1
  · intro h1
    show timeSub _ _ = _
    rw [hunix]
    exact timeSub_above _ _ h1

/-- C10 at a concrete failed task created 900900 nanoseconds before the clock reading. -/
theorem C10_outcome_metrics_witness :
    durationsSent (handleCompletedStagingTask fakeOutboxEnv fakeOutbox fakeFailedTask
        fakeWorld).2 = [("StagingRequestFailedDuration", 900900)] ∧
    (countersIncremented (handleCompletedStagingTask fakeOutboxEnv fakeOutbox fakeFailedTask
        fakeWorld).2).count "StagingRequestsFailed" = 1 ∧
    (countersIncremented (handleCompletedStagingTask fakeOutboxEnv fakeOutbox fakeFailedTask
        fakeWorld).2).count "StagingRequestsSucceeded" = 0 := by
  have h := C10_outcome_metrics fakeOutboxEnv fakeOutbox fakeFailedTask fakeWorld
    (Or.inl (by decide))
  refine ⟨?_, h.2.2.1, h.2.2.2.1⟩
  rw [h.2.1, h.2.2.2.2.1 (by decide) (by decide)]
  decide

/-- The fake coordinator lets a task be claimed for resolution at most once. -/
theorem fakeOutbox_resolvingAtMostOnce (guid : String) :
    ResolvingAtMostOnce fakeOutbox guid (fun w => guid ∈ w.resolving) where
  claims w h := by
    by_cases hm : guid ∈ w.resolving
    · simp [fakeOutbox, fakeBBS, hm]
    · simp [fakeOutbox, fakeBBS, hm]
  refuses w h := by simp [fakeOutbox, fakeBBS, h]
  keptByResolving g w h := by
    by_cases hm : g ∈ w.resolving
    · simpa [fakeOutbox, fakeBBS, hm] using h
    · simp [fakeOutbox, fakeBBS, hm, h]
  keptByResolve g w h := by
    by_cases hm : g ∈ w.resolving
    · simpa [fakeOutbox, fakeBBS, hm] using h
    · simpa [fakeOutbox, fakeBBS, hm] using h
  keptByPost payload w h := by
    by_cases hm : w.ccReachable = true
    · simpa [fakeOutbox, fakeApiClient, hm] using h
    · simpa [fakeOutbox, fakeApiClient, hm] using h
  keptByTime w h := by simpa [fakeOutbox, fakeTimeProvider] using h

/-- After a run of the dispatcher in which `ResolvingTask` succeeded, the task is claimed. -/
theorem handle_claims {σ : Type} (env : OutboxEnv) (o : Outbox σ) (task : Task) (w : σ)
    (claimed : σ → Prop) (hOnce : ResolvingAtMostOnce o task.Guid claimed)
    (h : task.Domain = env.TaskDomain ∨ task.Domain = env.DockerTaskDomain)
    (hr : (resolvingStep o task w).1 = none) :
    claimed (handleCompletedStagingTask env o task w).1 := by
  have hclaimed : claimed (resolvingStep o task w).2 := hOnce.claims _ hr
  rcases handle_calls env o task w h with
    ⟨hne, _⟩ | ⟨_, _, _, _, _, hw⟩ | ⟨p, _, _, _, _, _, hw⟩ | ⟨p, _, _, _, _, _, hw⟩
  · exact absurd hr hne
  · rw [hw]; exact hclaimed
  · rw [hw]; exact hOnce.keptByPost _ _ hclaimed
  · rw [hw]; exact hOnce.keptByResolve _ _ (hOnce.keptByPost _ _ hclaimed)

/-- A run of the dispatcher on a claimed task stops at the failing `ResolvingTask` call. -/
theorem handle_of_claimed {σ : Type} (env : OutboxEnv) (o : Outbox σ) (task : Task) (w : σ)
    (claimed : σ → Prop) (hOnce : ResolvingAtMostOnce o task.Guid claimed)
    (h : task.Domain = env.TaskDomain ∨ task.Domain = env.DockerTaskDomain)
    (hw : claimed w) :
    calls (handleCompletedStagingTask env o task w).2 = [.resolvingTask task.Guid false] ∧
    countersIncremented (handleCompletedStagingTask env o task w).2 =
      [if task.Failed then stagingFailureCounter else stagingSuccessCounter] := by
  have hfail : (resolvingStep o task w).1 ≠ none :=
    hOnce.refuses _ (hOnce.keptByTime _ hw)
  rcases handle_calls env o task w h with
    ⟨_, hc, hk, _⟩ | ⟨hr, _⟩ | ⟨p, hr, _⟩ | ⟨p, hr, _⟩
  · exact ⟨hc, hk⟩
  · exact absurd hr hfail
  · exact absurd hr hfail
  · exact absurd hr hfail

/-- C5, as stated, fails: with a coordinator that lets a task be claimed at most once, two runs
of the dispatcher on a staging task whose annotation is not JSON make no delivery and no
`ResolveTask` call at all, instead of exactly one of each. -/
theorem C5_counterexample :
    ResolvingAtMostOnce fakeOutbox fakeGarbledTask.Guid
      (fun w => fakeGarbledTask.Guid ∈ w.resolving) ∧
    fakeGarbledTask.Domain = fakeOutboxEnv.TaskDomain ∧
    calls ((handleCompletedStagingTask fakeOutboxEnv fakeOutbox fakeGarbledTask fakeWorld).2 ++
      (handleCompletedStagingTask fakeOutboxEnv fakeOutbox fakeGarbledTask
        (handleCompletedStagingTask fakeOutboxEnv fakeOutbox fakeGarbledTask fakeWorld).1).2)
      = [.resolvingTask "the-task-guid" true, .resolvingTask "the-task-guid" false] ∧
    (calls ((handleCompletedStagingTask fakeOutboxEnv fakeOutbox fakeGarbledTask fakeWorld).2 ++
      (handleCompletedStagingTask fakeOutboxEnv fakeOutbox fakeGarbledTask
        (handleCompletedStagingTask fakeOutboxEnv fakeOutbox fakeGarbledTask fakeWorld).1).2)
      ).count (.resolveTask "the-task-guid" true) = 0 ∧
    (calls ((handleCompletedStagingTask fakeOutboxEnv fakeOutbox fakeGarbledTask fakeWorld).2 ++
      (handleCompletedStagingTask fakeOutboxEnv fakeOutbox fakeGarbledTask
        (handleCompletedStagingTask fakeOutboxEnv fakeOutbox fakeGarbledTask fakeWorld).1).2)
      ).countP Call.isStagingComplete = 0 :=
  ⟨fakeOutbox_resolvingAtMostOnce _, by decide, by decide, by decide, by decide⟩

/-- C5, amended: with a coordinator whose `ResolvingTask` succeeds at most once per Guid, two
runs of the dispatcher on staging tasks bearing the same Guid make at most one successful
`ResolveTask` call and at most one delivery. If `ResolvingTask` succeeds in the first run, the
second run fails at its `ResolvingTask` call and makes no other call (no delivery, no
`ResolveTask`) and increments no failed-to-resolve counter. If moreover translation, delivery
and `ResolveTask` succeed in the first run, there is exactly one successful `ResolveTask` call
and exactly one delivery. -/
theorem C5_dispatch_idempotent {σ : Type} (env : OutboxEnv) (o : Outbox σ)
    (first second : Task) (w : σ) (claimed : σ → Prop)
    (hOnce : ResolvingAtMostOnce o first.Guid claimed)
    (hGuid : second.Guid = first.Guid)
    (h1 : first.Domain = env.TaskDomain ∨ first.Domain = env.DockerTaskDomain)
    (h2 : second.Domain = env.TaskDomain ∨ second.Domain = env.DockerTaskDomain) :
    ((calls ((handleCompletedStagingTask env o first w).2 ++
        (handleCompletedStagingTask env o second
          (handleCompletedStagingTask env o first w).1).2)).count
        (.resolveTask first.Guid true) ≤ 1 ∧
      (calls ((handleCompletedStagingTask env o first w).2 ++
        (handleCompletedStagingTask env o second
          (handleCompletedStagingTask env o first w).1).2)).countP
        Call.isStagingComplete ≤ 1) ∧
    ((resolvingStep o first w).1 = none →
      calls (handleCompletedStagingTask env o second
        (handleCompletedStagingTask env o first w).1).2 = [.resolvingTask first.Guid false] ∧
      countersIncremented (handleCompletedStagingTask env o second
        (handleCompletedStagingTask env o first w).1).2 =
          [if second.Failed then stagingFailureCounter else stagingSuccessCounter]) ∧
    ((resolvingStep o first w).1 = none → (deliveryStep env o first w).err = none →
      (o.bbs.ResolveTask first.Guid (deliveryStep env o first w).world).1 = none →
      (calls ((handleCompletedStagingTask env o first w).2 ++
        (handleCompletedStagingTask env o second
          (handleCompletedStagingTask env o first w).1).2)).count
        (.resolveTask first.Guid true) = 1 ∧
      (calls ((handleCompletedStagingTask env o first w).2 ++
        (handleCompletedStagingTask env o second
          (handleCompletedStagingTask env o first w).1).2)).countP
        Call.isStagingComplete = 1) := by
  have hOnce2 : ResolvingAtMostOnce o second.Guid claimed := by rw [hGuid]; exact hOnce
  have hsecond : (resolvingStep o first w).1 = none →
      calls (handleCompletedStagingTask env o second
        (handleCompletedStagingTask env o first w).1).2 = [.resolvingTask first.Guid false] ∧
      countersIncremented (handleCompletedStagingTask env o second
        (handleCompletedStagingTask env o first w).1).2 =
          [if second.Failed then stagingFailureCounter else stagingSuccessCounter] := by
    intro hr
    have hc := handle_claims env o first w claimed hOnce h1 hr
    have := handle_of_claimed env o second _ claimed hOnce2 h2 hc
    rw [hGuid] at this
    exact this
  refine ⟨?_, hsecond, ?_⟩
  · rcases handle_calls env o first w h1 with
      ⟨hne, hc, _⟩ | ⟨hr, _, _, hc, _⟩ | ⟨p, hr, _, _, hc, _⟩ | ⟨p, hr, _, _, hc, _⟩
    · rcases handle_calls env o second (handleCompletedStagingTask env o first w).1 h2 with
        ⟨_, hc2, _⟩ | ⟨_, _, _, hc2, _⟩ | ⟨q, _, _, _, hc2, _⟩ | ⟨q, _, _, _, hc2, _⟩ <;>
      · rw [calls_append, hc, hc2]
        refine ⟨?_, ?_⟩
        · simp only [List.count_cons, List.cons_append, List.nil_append, List.count_nil,
            beq_iff_eq, Call.resolveTask.injEq, reduceCtorEq, if_false, Nat.zero_add]
          first
            | exact Nat.zero_le _
            | (split <;> simp)
        · simp [List.countP_cons, Call.isStagingComplete]
    · rw [calls_append, hc, (hsecond hr).1]
      simp [List.count_cons, List.countP_cons, Call.isStagingComplete]
    · rw [calls_append, hc, (hsecond hr).1]
      simp [List.count_cons, List.countP_cons, Call.isStagingComplete]
    · rw [calls_append, hc, (hsecond hr).1]
      refine ⟨?_, ?_⟩
      · simp only [List.count_cons, List.cons_append, List.nil_append, List.count_nil,
          beq_iff_eq, Call.resolveTask.injEq, reduceCtorEq, if_false, Nat.zero_add]
        split <;> simp
      · simp [List.countP_cons, Call.isStagingComplete]
  · intro hr hd hres
    rcases handle_calls env o first w h1 with
      ⟨hne, _⟩ | ⟨_, hdne, _⟩ | ⟨p, _, hdne, _⟩ | ⟨p, _, _, _, hc, _⟩
    · exact absurd hr hne
    · exact absurd hd hdne
    · exact absurd hd hdne
    · rw [calls_append, hc, (hsecond hr).1, hres]
      simp [List.count_cons, List.countP_cons, Call.isStagingComplete]

/-- C5 at two concrete tasks of one Guid, on the test doubles: one delivery and one successful
`ResolveTask` call in all. -/
theorem C5_dispatch_idempotent_witness :
    (calls ((handleCompletedStagingTask fakeOutboxEnv fakeOutbox fakeTask fakeWorld).2 ++
        (handleCompletedStagingTask fakeOutboxEnv fakeOutbox fakeFailedTask
          (handleCompletedStagingTask fakeOutboxEnv fakeOutbox fakeTask fakeWorld).1).2)).count
        (.resolveTask fakeTask.Guid true) = 1 ∧
      (calls ((handleCompletedStagingTask fakeOutboxEnv fakeOutbox fakeTask fakeWorld).2 ++
        (handleCompletedStagingTask fakeOutboxEnv fakeOutbox fakeFailedTask
          (handleCompletedStagingTask fakeOutboxEnv fakeOutbox fakeTask fakeWorld).1).2)).countP
        Call.isStagingComplete = 1 :=
  (C5_dispatch_idempotent fakeOutboxEnv fakeOutbox fakeTask fakeFailedTask fakeWorld
    (fun w => fakeTask.Guid ∈ w.resolving) (fakeOutbox_resolvingAtMostOnce _) rfl
    (Or.inl (by decide)) (Or.inl (by decide))).2.2 (by decide) (by decide) (by decide)

/-- The calls of `deliverResponse` once the response is built: none if it cannot be
marshalled, else one `StagingComplete` call with the marshalled response. -/
theorem deliverResponse_calls {σ : Type} (env : OutboxEnv) (o : Outbox σ) (task : Task) (w : σ)
    (message : StagingResponseForCC) (hb : buildResponse task = .ok message) :
    (∀ payload ok,
      Call.stagingComplete payload ok ∈ calls (deliverResponse env o task w).effects →
      env.marshalResponse message = .ok payload) ∧
    (∀ payload, env.marshalResponse message = .ok payload →
      calls (deliverResponse env o task w).effects =
        [.stagingComplete payload (o.apiClient.StagingComplete payload w).1.isNone]) := by
  unfold deliverResponse
  simp only [hb]
  rcases hm : env.marshalResponse message with e | payload
  · simp [calls, Effect.call?]
  · have h := stagingComplete_spec o payload w
    simp only [h.2.2.1]
    simp

/-- The calls of `deliverDockerResponse` once the response is built: none if it cannot be
marshalled, else one `StagingComplete` call with the marshalled response. -/
theorem deliverDockerResponse_calls {σ : Type} (env : OutboxEnv) (o : Outbox σ) (task : Task)
    (w : σ) (response : DockerStagingResponseForCC)
    (hb : buildDockerResponse task = .ok response) :
    (∀ payload ok,
      Call.stagingComplete payload ok ∈ calls (deliverDockerResponse env o task w).effects →
      env.marshalDockerResponse response = .ok payload) ∧
    (∀ payload, env.marshalDockerResponse response = .ok payload →
      calls (deliverDockerResponse env o task w).effects =
        [.stagingComplete payload (o.apiClient.StagingComplete payload w).1.isNone]) := by
  unfold deliverDockerResponse
  simp only [hb]
  rcases hm : env.marshalDockerResponse response with e | payload
  · simp [calls, Effect.call?]
  · have h := stagingComplete_spec o payload w
    simp only [h.2.2.1]
    simp

/-- C6: for a failed task whose annotation unmarshals, the response built by the buildpack
variant and by the container-image variant has `Error` equal to `task.FailureReason`, `AppId`
and `TaskId` taken from the annotation and every success field empty; it does not depend on
`task.Result`; and whatever is delivered to the control-plane client is the marshalling of
that response (delivered in one `StagingComplete` call when marshalling succeeds). -/
theorem C6_failed_response {σ : Type} (env : OutboxEnv) (o : Outbox σ) (task : Task) (w : σ)
    (ann : StagingTaskAnnotation) (hFailed : task.Failed = true)
    (hAnn : jsonUnmarshal StagingTaskAnnotation.fields StagingTaskAnnotation.setField
      task.Annotation {} = .ok ann) :
    buildResponse task = .ok
      { AppId := ann.AppId, TaskId := ann.TaskId, BuildpackKey := "",
        DetectedBuildpack := "", ExecutionMetadata := "", DetectedStartCommand := none,
        Error := task.FailureReason } ∧
    buildDockerResponse task = .ok
      { AppId := ann.AppId, TaskId := ann.TaskId, ExecutionMetadata := "",
        DetectedStartCommand := none, Error := task.FailureReason } ∧
    (∀ result : String,
      buildResponse { task with Result := result } = buildResponse task ∧
      buildDockerResponse { task with Result := result } = buildDockerResponse task) ∧
    (∀ payload ok,
      Call.stagingComplete payload ok ∈ calls (deliverResponse env o task w).effects →
      env.marshalResponse
        { AppId := ann.AppId, TaskId := ann.TaskId, BuildpackKey := "",
          DetectedBuildpack := "", ExecutionMetadata := "", DetectedStartCommand := none,
          Error := task.FailureReason } = .ok payload) ∧
    (∀ payload, env.marshalResponse
        { AppId := ann.AppId, TaskId := ann.TaskId, BuildpackKey := "",
          DetectedBuildpack := "", ExecutionMetadata := "", DetectedStartCommand := none,
          Error := task.FailureReason } = .ok payload →
      calls (deliverResponse env o task w).effects =
        [.stagingComplete payload (o.apiClient.StagingComplete payload w).1.isNone]) ∧
    (∀ payload ok,
      Call.stagingComplete payload ok ∈ calls (deliverDockerResponse env o task w).effects →
      env.marshalDockerResponse
        { AppId := ann.AppId, TaskId := ann.TaskId, ExecutionMetadata := "",
          DetectedStartCommand := none, Error := task.FailureReason } = .ok payload) ∧
    (∀ payload, env.marshalDockerResponse
        { AppId := ann.AppId, TaskId := ann.TaskId, ExecutionMetadata := "",
          DetectedStartCommand := none, Error := task.FailureReason } = .ok payload →
      calls (deliverDockerResponse env o task w).effects =
        [.stagingComplete payload (o.apiClient.StagingComplete payload w).1.isNone]) := by
  have hb : buildResponse task = .ok
      { AppId := ann.AppId, TaskId := ann.TaskId, BuildpackKey := "",
        DetectedBuildpack := "", ExecutionMetadata := "", DetectedStartCommand := none,
        Error := task.FailureReason } := by
    simp [buildResponse, hAnn, hFailed]
  have hd : buildDockerResponse task = .ok
      { AppId := ann.AppId, TaskId := ann.TaskId, ExecutionMetadata := "",
        DetectedStartCommand := none, Error := task.FailureReason } := by
    simp [buildDockerResponse, hAnn, hFailed]
  refine ⟨hb, hd, ?_, (deliverResponse_calls env o task w _ hb).1,
    (deliverResponse_calls env o task w _ hb).2,
    (deliverDockerResponse_calls env o task w _ hd).1,
    (deliverDockerResponse_calls env o task w _ hd).2⟩
  intro result
  constructor
  · rw [hb]; simp [buildResponse, hAnn, hFailed]
  · rw [hd]; simp [buildDockerResponse, hAnn, hFailed]

/-- C6 at a concrete failed task. -/
theorem C6_failed_response_witness :
    buildResponse fakeFailedTask = .ok
      { AppId := "the-app-id", TaskId := "the-task-id", BuildpackKey := "",
        DetectedBuildpack := "", ExecutionMetadata := "", DetectedStartCommand := none,
        Error := "because I said so" } ∧
    buildDockerResponse fakeFailedTask = .ok
      { AppId := "the-app-id", TaskId := "the-task-id", ExecutionMetadata := "",
        DetectedStartCommand := none, Error := "because I said so" } :=
  ⟨(C6_failed_response fakeOutboxEnv fakeOutbox fakeFailedTask fakeWorld
      { AppId := "the-app-id", TaskId := "the-task-id" } rfl (by rfl)).1,
    (C6_failed_response fakeOutboxEnv fakeOutbox fakeFailedTask fakeWorld
      { AppId := "the-app-id", TaskId := "the-task-id" } rfl (by rfl)).2.1⟩

/-- C7: for a successful task whose annotation and result unmarshal, the response built by the
buildpack variant has `BuildpackKey`, `DetectedBuildpack`, `ExecutionMetadata` and
`DetectedStartCommand` equal to those of the result, `AppId` and `TaskId` equal to those of
the annotation and an empty `Error`, and whatever is delivered is the marshalling of that
response. In particular the result
`{"buildpack_key":"bp1","detected_buildpack":"Ruby","detected_start_command":{"web":"run.sh"}}`
gives buildpack key `bp1`, detected buildpack `Ruby` and start command `web` to `run.sh`. -/
theorem C7_successful_response {σ : Type} (env : OutboxEnv) (o : Outbox σ) (task : Task) (w : σ)
    (ann : StagingTaskAnnotation) (result : StagingResult)
    (hFailed : task.Failed = false)
    (hAnn : jsonUnmarshal StagingTaskAnnotation.fields StagingTaskAnnotation.setField
      task.Annotation {} = .ok ann)
    (hResult : jsonUnmarshal StagingResult.fields StagingResult.setField
      task.Result {} = .ok result) :
    buildResponse task = .ok
      { AppId := ann.AppId, TaskId := ann.TaskId,
        BuildpackKey := result.BuildpackKey, DetectedBuildpack := result.DetectedBuildpack,
        ExecutionMetadata := result.ExecutionMetadata,
        DetectedStartCommand := result.DetectedStartCommand, Error := "" } ∧
    (∀ payload ok,
      Call.stagingComplete payload ok ∈ calls (deliverResponse env o task w).effects →
      env.marshalResponse
        { AppId := ann.AppId, TaskId := ann.TaskId,
          BuildpackKey := result.BuildpackKey, DetectedBuildpack := result.DetectedBuildpack,
          ExecutionMetadata := result.ExecutionMetadata,
          DetectedStartCommand := result.DetectedStartCommand, Error := "" } = .ok payload) ∧
    (∀ payload, env.marshalResponse
        { AppId := ann.AppId, TaskId := ann.TaskId,
          BuildpackKey := result.BuildpackKey, DetectedBuildpack := result.DetectedBuildpack,
          ExecutionMetadata := result.ExecutionMetadata,
          DetectedStartCommand := result.DetectedStartCommand, Error := "" } = .ok payload →
      calls (deliverResponse env o task w).effects =
        [.stagingComplete payload (o.apiClient.StagingComplete payload w).1.isNone]) ∧
    (task.Result = "\x7b\"buildpack_key\":\"bp1\",\"detected_buildpack\":\"Ruby\"," ++
        "\"detected_start_command\":\x7b\"web\":\"run.sh\"\x7d\x7d" →
      buildResponse task = .ok
        { AppId := ann.AppId, TaskId := ann.TaskId,
          BuildpackKey := "bp1", DetectedBuildpack := "Ruby", ExecutionMetadata := "",
          DetectedStartCommand := some [("web", "run.sh")], Error := "" }) := by
  have hb : buildResponse task = .ok
      { AppId := ann.AppId, TaskId := ann.TaskId,
        BuildpackKey := result.BuildpackKey, DetectedBuildpack := result.DetectedBuildpack,
        ExecutionMetadata := result.ExecutionMetadata,
        DetectedStartCommand := result.DetectedStartCommand, Error := "" } := by
    simp [buildResponse, hAnn, hFailed, hResult]
  refine ⟨hb, (deliverResponse_calls env o task w _ hb).1,
    (deliverResponse_calls env o task w _ hb).2, ?_⟩
  intro hliteral
  have hparsed : jsonUnmarshal StagingResult.fields StagingResult.setField
      ("\x7b\"buildpack_key\":\"bp1\",\"detected_buildpack\":\"Ruby\"," ++
        "\"detected_start_command\":\x7b\"web\":\"run.sh\"\x7d\x7d") {} =
      .ok { BuildpackKey := "bp1", DetectedBuildpack := "Ruby", ExecutionMetadata := "",
            DetectedStartCommand := some [("web", "run.sh")] } := by rfl
  rw [hliteral, hparsed] at hResult
  injection hResult with hResult
  rw [hb, ← hResult]

/-- C7 at a concrete successful task carrying the example result. -/
theorem C7_successful_response_witness :
    buildResponse fakeTask = .ok
      { AppId := "the-app-id", TaskId := "the-task-id",
        BuildpackKey := "bp1", DetectedBuildpack := "Ruby", ExecutionMetadata := "",
        DetectedStartCommand := some [("web", "run.sh")], Error := "" } ∧
    calls (deliverResponse fakeOutboxEnv fakeOutbox fakeTask fakeWorld).effects =
      [.stagingComplete "the-app-id/the-task-id/bp1/" true] := by
  have h := C7_successful_response fakeOutboxEnv fakeOutbox fakeTask fakeWorld
    { AppId := "the-app-id", TaskId := "the-task-id" }
    { BuildpackKey := "bp1", DetectedBuildpack := "Ruby", ExecutionMetadata := "",
      DetectedStartCommand := some [("web", "run.sh")] } rfl (by rfl) (by rfl)
  exact ⟨h.2.2.2 rfl, by decide⟩

/-- C8, as stated, fails on its second clause: an annotation that is a JSON object without
`app_id` is accepted; the response is built with an empty `AppId` and delivered. -/
theorem C8_counterexample :
    (parseJSON fakeAnonymousTask.Annotation).map JSON.keys = some ["task_id"] ∧
    (deliverResponse fakeOutboxEnv fakeOutbox fakeAnonymousTask fakeWorld).err = none ∧
    calls (deliverResponse fakeOutboxEnv fakeOutbox fakeAnonymousTask fakeWorld).effects =
      [.stagingComplete "/the-task-id/bp1/" true] ∧
    (deliverResponse fakeOutboxEnv fakeOutbox fakeAnonymousTask fakeWorld).world.posted =
      ["/the-task-id/bp1/"] := by
  decide

/-- An annotation that is a JSON object in which no key names a field unmarshals to the
empty annotation: an absent field is left empty, not refused. -/
theorem unmarshal_of_no_field_key (data : String) (members : List (String × JSON))
    (hparse : parseJSON data = some (.object members))
    (hkeys : ∀ member ∈ members, findField StagingTaskAnnotation.fields member.1 = none) :
    jsonUnmarshal StagingTaskAnnotation.fields StagingTaskAnnotation.setField data {}
      = .ok { AppId := "", TaskId := "" } := by
  have hskip : ∀ (ms : List (String × JSON)) (v : StagingTaskAnnotation),
      (∀ member ∈ ms, findField StagingTaskAnnotation.fields member.1 = none) →
      decodeMembers StagingTaskAnnotation.fields StagingTaskAnnotation.setField ms v
        = .ok v := by
    intro ms
    induction ms with
    | nil => intro v _; rfl
    | cons m rest ih =>
      intro v hall
      obtain ⟨key, value⟩ := m
      have hkey : findField StagingTaskAnnotation.fields key = none :=
        hall (key, value) (List.mem_cons_self _ _)
      simp only [decodeMembers, hkey]
      exact ih v (fun member hmem => hall member (List.mem_cons_of_mem _ hmem))
  simp only [jsonUnmarshal, hparse]
  exact hskip members _ hkeys

/-- C8, amended: for every task whose annotation is malformed JSON, `deliverResponse` fails
with the error `json.Unmarshal` returns for the annotation, and delivers nothing to the
control-plane client: it performs no effect and leaves the world as it was. -/
theorem C8_malformed_annotation_rejected {σ : Type} (env : OutboxEnv) (o : Outbox σ)
    (task : Task) (w : σ) (h : parseJSON task.Annotation = none) :
    (∃ e : GoError,
      jsonUnmarshal StagingTaskAnnotation.fields StagingTaskAnnotation.setField
        task.Annotation {} = .error e ∧
      (deliverResponse env o task w).err = some e) ∧
    (deliverResponse env o task w).effects = [] ∧
    calls (deliverResponse env o task w).effects = [] ∧
    (deliverResponse env o task w).world = w := by
  have hu : jsonUnmarshal StagingTaskAnnotation.fields StagingTaskAnnotation.setField
      task.Annotation {} = .error jsonSyntaxError := by
    simp [jsonUnmarshal, h]
  have hb : buildResponse task = .error jsonSyntaxError := by
    simp [buildResponse, hu]
  refine ⟨⟨jsonSyntaxError, hu, ?_⟩, ?_, ?_, ?_⟩ <;> simp [deliverResponse, hb, calls]

/-- C8 at a concrete task whose annotation is not JSON. -/
theorem C8_malformed_annotation_rejected_witness :
    (deliverResponse fakeOutboxEnv fakeOutbox fakeGarbledTask fakeWorld).err ≠ none ∧
    (deliverResponse fakeOutboxEnv fakeOutbox fakeGarbledTask fakeWorld).effects = [] ∧
    calls (deliverResponse fakeOutboxEnv fakeOutbox fakeGarbledTask fakeWorld).effects = [] ∧
    (deliverResponse fakeOutboxEnv fakeOutbox fakeGarbledTask fakeWorld).world = fakeWorld := by
  obtain ⟨⟨e, _, herr⟩, hrest⟩ :=
    C8_malformed_annotation_rejected fakeOutboxEnv fakeOutbox fakeGarbledTask fakeWorld (by rfl)
  exact ⟨by rw [herr]; simp, hrest⟩

/-- C11: a completed task whose Domain is neither the buildpack staging domain nor the
container-image staging domain is ignored by `handleCompletedStagingTask`: it performs no
effect at all (no metric, no `ResolvingTask` or `ResolveTask` call, no delivery, no log line)
and leaves the world, clock included, as it was. -/
theorem C11_unrecognized_domain_ignored {σ : Type} (env : OutboxEnv) (o : Outbox σ)
    (task : Task) (w : σ)
    (h : task.Domain ≠ env.TaskDomain ∧ task.Domain ≠ env.DockerTaskDomain) :
    (handleCompletedStagingTask env o task w).2 = [] ∧
    (handleCompletedStagingTask env o task w).1 = w ∧
    calls (handleCompletedStagingTask env o task w).2 = [] ∧
    countersIncremented (handleCompletedStagingTask env o task w).2 = [] ∧
    durationsSent (handleCompletedStagingTask env o task w).2 = [] := by
  rw [handle_unrecognized env o task w h]
  exact ⟨rfl, rfl, rfl, rfl, rfl⟩

/-- C11 at a concrete failed task of a foreign domain, on the test doubles. -/
theorem C11_unrecognized_domain_ignored_witness :
    (handleCompletedStagingTask fakeOutboxEnv fakeOutbox fakeForeignTask fakeWorld).2 = [] ∧
    (handleCompletedStagingTask fakeOutboxEnv fakeOutbox fakeForeignTask fakeWorld).1
      = fakeWorld ∧
    calls (handleCompletedStagingTask fakeOutboxEnv fakeOutbox fakeForeignTask fakeWorld).2
      = [] ∧
    countersIncremented
      (handleCompletedStagingTask fakeOutboxEnv fakeOutbox fakeForeignTask fakeWorld).2 = [] ∧
    durationsSent
      (handleCompletedStagingTask fakeOutboxEnv fakeOutbox fakeForeignTask fakeWorld).2 = [] :=
  C11_unrecognized_domain_ignored fakeOutboxEnv fakeOutbox fakeForeignTask fakeWorld
    (by decide)

/-! ## Lemmas on the watch loop -/

/-- Once `Run` has returned, no event is taken. -/
theorem runLoop_of_returned {σ : Type} (env : OutboxEnv) (o : Outbox σ)
    (watcher : CompletedTaskWatcher σ) (s : LoopState σ) (r : Option GoError)
    (h : s.returned = some r) (events : List WatchEvent) :
    runLoop env o watcher s events = s := by
  cases events with
  | nil => rfl
  | cons event rest => simp [runLoop, h]

/-- The loop over two runs of events is the loop over the second from where the first ends. -/
theorem runLoop_append {σ : Type} (env : OutboxEnv) (o : Outbox σ)
    (watcher : CompletedTaskWatcher σ) (a b : List WatchEvent) :
    ∀ s : LoopState σ,
      runLoop env o watcher s (a ++ b) = runLoop env o watcher (runLoop env o watcher s a) b := by
  induction a with
  | nil => intro s; rfl
  | cons event rest ih =>
    intro s
    rcases hr : s.returned with _ | r
    · simp only [List.cons_append, runLoop, hr]
      exact ih _
    · rw [runLoop_of_returned env o watcher s r hr, runLoop_of_returned env o watcher s r hr,
        runLoop_of_returned env o watcher s r hr]

/-- Only the shutdown signal makes a turn of the loop return, and it returns nil. -/
theorem runStep_returned {σ : Type} (env : OutboxEnv) (o : Outbox σ)
    (watcher : CompletedTaskWatcher σ) (s : LoopState σ) (event : WatchEvent)
    (h : s.returned = none) :
    (runStep env o watcher s event).returned =
      if event = WatchEvent.signal then some none else none := by
  cases event <;> simp only [runStep, dispatchTask, reduceCtorEq, if_false, if_true]
  · split <;> exact h
  · split <;> exact h
  · exact h
  · exact h

/-- The loop takes the events before the first shutdown signal, then that signal if there is
one, and nothing after it. -/
theorem runLoop_untilSignal {σ : Type} (env : OutboxEnv) (o : Outbox σ)
    (watcher : CompletedTaskWatcher σ) (events : List WatchEvent) :
    ∀ s : LoopState σ, s.returned = none →
      runLoop env o watcher s events =
        if WatchEvent.signal ∈ events then
          runStep env o watcher (runLoop env o watcher s (untilSignal events)) .signal
        else runLoop env o watcher s (untilSignal events) := by
  induction events with
  | nil => intro s _; simp [untilSignal]
  | cons event rest ih =>
    intro s hs
    by_cases he : event = WatchEvent.signal
    · subst he
      simp only [runLoop, hs, untilSignal, List.mem_cons, true_or, if_true]
      exact runLoop_of_returned env o watcher _ none rfl rest
    · have hr := runStep_returned env o watcher s event hs
      rw [if_neg he] at hr
      have hmem : (WatchEvent.signal ∈ event :: rest) = (WatchEvent.signal ∈ rest) := by
        simp [List.mem_cons, Ne.symm he]
      have hu : untilSignal (event :: rest) = event :: untilSignal rest := by
        cases event <;> first | rfl | exact absurd rfl he
      simp only [hmem, hu, runLoop, hs]
      exact ih _ hr

/-- No event before the first shutdown signal makes the loop return. -/
theorem runLoop_untilSignal_returned {σ : Type} (env : OutboxEnv) (o : Outbox σ)
    (watcher : CompletedTaskWatcher σ) (events : List WatchEvent) :
    ∀ s : LoopState σ, s.returned = none →
      (runLoop env o watcher s (untilSignal events)).returned = none := by
  induction events with
  | nil => intro s hs; exact hs
  | cons event rest ih =>
    intro s hs
    by_cases he : event = WatchEvent.signal
    · subst he; exact hs
    · have hr := runStep_returned env o watcher s event hs
      rw [if_neg he] at hr
      have hu : untilSignal (event :: rest) = event :: untilSignal rest := by
        cases event <;> first | rfl | exact absurd rfl he
      simp only [hu, runLoop, hs]
      exact ih _ hr

/-- A sequence without shutdown signal is taken whole. -/
theorem untilSignal_of_not_mem (events : List WatchEvent)
    (h : WatchEvent.signal ∉ events) : untilSignal events = events := by
  induction events with
  | nil => rfl
  | cons event rest ih =>
    simp only [List.mem_cons, not_or] at h
    have hu : untilSignal (event :: rest) = event :: untilSignal rest := by
      cases event <;> first | rfl | exact absurd rfl h.1
    rw [hu, ih h.2]

theorem watchCalls_append (a b : List LoopEffect) :
    watchCalls (a ++ b) = watchCalls a + watchCalls b := by
  induction a with
  | nil => simp [watchCalls]
  | cons e rest ih =>
    cases e
    case watchForCompletedTask => simp [watchCalls, ih]; omega
    all_goals simp [watchCalls, ih]

theorem sleeps_append (a b : List LoopEffect) : sleeps (a ++ b) = sleeps a ++ sleeps b := by
  induction a with
  | nil => simp [sleeps]
  | cons e rest ih => cases e <;> simp [sleeps, ih]

theorem dispatchedTasks_append (a b : List LoopEffect) :
    dispatchedTasks (a ++ b) = dispatchedTasks a ++ dispatchedTasks b := by
  induction a with
  | nil => simp [dispatchedTasks]
  | cons e rest ih => cases e <;> simp [dispatchedTasks, ih]

/-- What one turn of the loop adds to the subscriptions and to the waits: one wait of three
seconds and one subscription on an event of the error channel, nothing otherwise. -/
theorem runStep_watch {σ : Type} (env : OutboxEnv) (o : Outbox σ)
    (watcher : CompletedTaskWatcher σ) (s : LoopState σ) (event : WatchEvent) :
    watchCalls (runStep env o watcher s event).effects =
      watchCalls s.effects + (if event.isStreamError then 1 else 0) ∧
    sleeps (runStep env o watcher s event).effects =
      sleeps s.effects ++ (if event.isStreamError then [3000000000] else []) := by
  cases event with
  | item task =>
    simp only [runStep, dispatchTask, WatchEvent.isStreamError]
    split <;> simp [watchCalls_append, sleeps_append, watchCalls, sleeps]
  | tasksClosed =>
    simp only [runStep, dispatchTask, WatchEvent.isStreamError]
    split <;> simp [watchCalls_append, sleeps_append, watchCalls, sleeps]
  | error err =>
    simp only [runStep, WatchEvent.isStreamError]
    cases err <;>
      simp [watchCalls_append, sleeps_append, watchCalls, sleeps, timeSecond]
  | errorsClosed =>
    simp [runStep, WatchEvent.isStreamError, watchCalls_append, sleeps_append, watchCalls,
      sleeps, timeSecond]
  | signal =>
    simp [runStep, WatchEvent.isStreamError, watchCalls_append, sleeps_append, watchCalls,
      sleeps]

/-- The subscriptions and waits of the loop: one of each per event of the error channel
taken. -/
theorem runLoop_watch {σ : Type} (env : OutboxEnv) (o : Outbox σ)
    (watcher : CompletedTaskWatcher σ) (events : List WatchEvent) :
    ∀ s : LoopState σ, s.returned = none → WatchEvent.signal ∉ events →
      watchCalls (runLoop env o watcher s events).effects =
        watchCalls s.effects + events.countP WatchEvent.isStreamError ∧
      sleeps (runLoop env o watcher s events).effects =
        sleeps s.effects ++ List.replicate (events.countP WatchEvent.isStreamError)
          3000000000 := by
  induction events with
  | nil => intro s _ _; simp [runLoop]
  | cons event rest ih =>
    intro s hs hmem
    simp only [List.mem_cons, not_or] at hmem
    have hr := runStep_returned env o watcher s event hs
    rw [if_neg (Ne.symm hmem.1)] at hr
    have hstep := runStep_watch env o watcher s event
    have hrest := ih _ hr hmem.2
    simp only [runLoop, hs, hrest.1, hrest.2, hstep.1, hstep.2, List.countP_cons]
    cases event.isStreamError
    · simp
    · simp [List.replicate_succ]; omega

/-- While no shutdown signal has been taken, `Run` has not returned. -/
theorem Run_running {σ : Type} (env : OutboxEnv) (o : Outbox σ)
    (watcher : CompletedTaskWatcher σ) (events : List WatchEvent) (world : σ)
    (h : WatchEvent.signal ∉ events) : (Run env o watcher events world).returned = none := by
  have := runLoop_untilSignal_returned env o watcher events
    { world := watcher.WatchForCompletedTask world
      tasksOpen := true
      effects := [.watchForCompletedTask, .log .info "started", .closeReady]
      returned := none } rfl
  rw [untilSignal_of_not_mem events h] at this
  exact this

/-- One more event, while no shutdown signal has been taken, is one more turn of the loop. -/
theorem Run_snoc {σ : Type} (env : OutboxEnv) (o : Outbox σ)
    (watcher : CompletedTaskWatcher σ) (events : List WatchEvent) (event : WatchEvent)
    (world : σ) (h : WatchEvent.signal ∉ events) :
    Run env o watcher (events ++ [event]) world =
      runStep env o watcher (Run env o watcher events world) event := by
  have hr := Run_running env o watcher events world h
  unfold Run at hr ⊢
  rw [runLoop_append]
  simp only [runLoop, hr]

/-- While `tasks` is nil, events of the task channel are not taken: the loop stays as it
is. -/
theorem runLoop_of_closed {σ : Type} (env : OutboxEnv) (o : Outbox σ)
    (watcher : CompletedTaskWatcher σ) (s : LoopState σ) (hclosed : s.tasksOpen = false)
    (events : List WatchEvent)
    (h : ∀ event ∈ events, event ≠ WatchEvent.signal ∧ event.isStreamError = false) :
    runLoop env o watcher s events = s := by
  induction events with
  | nil => rfl
  | cons event rest ih =>
    rcases hr : s.returned with _ | r
    · have hstep : runStep env o watcher s event = s := by
        have he := h event (List.mem_cons_self _ _)
        cases event with
        | item task => simp [runStep, hclosed]
        | tasksClosed => simp [runStep, hclosed]
        | error err => simp [WatchEvent.isStreamError] at he
        | errorsClosed => simp [WatchEvent.isStreamError] at he
        | signal => exact absurd rfl he.1
      simp only [runLoop, hr, hstep]
      exact ih (fun e hmem => h e (List.mem_cons_of_mem _ hmem))
    · exact runLoop_of_returned env o watcher s r hr _

/-- While `tasks` holds a channel, the items received are dispatched one after the other. -/
theorem runLoop_items {σ : Type} (env : OutboxEnv) (o : Outbox σ)
    (watcher : CompletedTaskWatcher σ) (tasks : List Task) :
    ∀ s : LoopState σ, s.returned = none → s.tasksOpen = true →
      dispatchedTasks (runLoop env o watcher s (tasks.map WatchEvent.item)).effects =
        dispatchedTasks s.effects ++ tasks ∧
      watchCalls (runLoop env o watcher s (tasks.map WatchEvent.item)).effects =
        watchCalls s.effects := by
  induction tasks with
  | nil => intro s _ _; simp [runLoop]
  | cons task rest ih =>
    intro s hs hopen
    have hstep : runStep env o watcher s (.item task) = dispatchTask env o task s := by
      simp [runStep, hopen]
    have h := ih (dispatchTask env o task s) hs hopen
    simp only [List.map_cons, runLoop, hs, hstep]
    rw [h.1, h.2]
    simp [dispatchTask, dispatchedTasks_append, dispatchedTasks, watchCalls_append, watchCalls]

/-- C12, as stated, fails: when the task stream closes, the loop neither waits nor calls
`WatchForCompletedTask` again (the only subscription is the initial one); it sets `tasks` to
nil and goes on without having returned. -/
theorem C12_counterexample :
    watchCalls (Run fakeOutboxEnv fakeOutbox fakeWatcher [] fakeWorld).effects = 1 ∧
    watchCalls (Run fakeOutboxEnv fakeOutbox fakeWatcher [.tasksClosed] fakeWorld).effects
      = 1 ∧
    sleeps (Run fakeOutboxEnv fakeOutbox fakeWatcher [.tasksClosed] fakeWorld).effects = [] ∧
    (Run fakeOutboxEnv fakeOutbox fakeWatcher [.tasksClosed] fakeWorld).tasksOpen = false ∧
    (Run fakeOutboxEnv fakeOutbox fakeWatcher [.tasksClosed] fakeWorld).returned = none := by
  decide

/-- C12, amended: over any finite sequence of events, `Run` returns only at the first shutdown
signal, with a nil error, and takes no event after it, so that nothing is dispatched after
it. An event of the error channel (an error received, or the error channel closing) is never
fatal: the loop then sleeps three seconds and calls `WatchForCompletedTask` again, in that
order, after which `tasks` holds a channel; over the whole run there are one subscription and
one wait per such event, besides the initial subscription. Every item received while `tasks`
holds a channel is dispatched: those received from the start and those received after an event
of the error channel. The closing of the task channel is not fatal either, but the loop then
neither waits nor subscribes again: it sets `tasks` to nil, and from then on no event of the
task channel is taken, so no item is dispatched, until an event of the error channel makes the
loop subscribe again. -/
theorem C12_watch_loop {σ : Type} (env : OutboxEnv) (o : Outbox σ)
    (watcher : CompletedTaskWatcher σ) (events : List WatchEvent) (world : σ) :
    (Run env o watcher events world).returned =
      (if WatchEvent.signal ∈ events then some none else none) ∧
    (∀ before after : List WatchEvent, WatchEvent.signal ∉ before →
      Run env o watcher (before ++ WatchEvent.signal :: after) world =
        Run env o watcher (before ++ [WatchEvent.signal]) world ∧
      dispatchedTasks (Run env o watcher (before ++ WatchEvent.signal :: after) world).effects =
        dispatchedTasks (Run env o watcher before world).effects) ∧
    (watchCalls (Run env o watcher events world).effects =
        1 + (untilSignal events).countP WatchEvent.isStreamError ∧
      sleeps (Run env o watcher events world).effects =
        List.replicate ((untilSignal events).countP WatchEvent.isStreamError) 3000000000) ∧
    (∀ (before : List WatchEvent) (event : WatchEvent), WatchEvent.signal ∉ before →
      event.isStreamError = true →
      (∃ logged : List LoopEffect,
        (Run env o watcher (before ++ [event]) world).effects =
          (Run env o watcher before world).effects ++ logged ++
            [.sleep 3000000000, .watchForCompletedTask] ∧
        dispatchedTasks logged = [] ∧ watchCalls logged = 0 ∧ sleeps logged = []) ∧
      (Run env o watcher (before ++ [event]) world).tasksOpen = true ∧
      (Run env o watcher (before ++ [event]) world).returned = none) ∧
    (∀ (before : List WatchEvent) (task : Task), WatchEvent.signal ∉ before →
      (Run env o watcher before world).tasksOpen = true →
      (Run env o watcher (before ++ [.item task]) world).effects =
        (Run env o watcher before world).effects ++
          [.dispatch task
            (handleCompletedStagingTask env o task (Run env o watcher before world).world).2] ∧
      (Run env o watcher (before ++ [.item task]) world).tasksOpen = true) ∧
    (∀ before : List WatchEvent, WatchEvent.signal ∉ before →
      watchCalls (Run env o watcher (before ++ [.tasksClosed]) world).effects =
        watchCalls (Run env o watcher before world).effects ∧
      sleeps (Run env o watcher (before ++ [.tasksClosed]) world).effects =
        sleeps (Run env o watcher before world).effects ∧
      (Run env o watcher (before ++ [.tasksClosed]) world).tasksOpen = false ∧
      (Run env o watcher (before ++ [.tasksClosed]) world).returned = none) ∧
    (∀ (before middle : List WatchEvent), WatchEvent.signal ∉ before →
      (∀ event ∈ middle, event ≠ WatchEvent.signal ∧ event.isStreamError = false) →
      Run env o watcher (before ++ WatchEvent.tasksClosed :: middle) world =
        Run env o watcher (before ++ [WatchEvent.tasksClosed]) world) ∧
    (∀ (before : List WatchEvent) (task : Task), WatchEvent.signal ∉ before →
      (Run env o watcher before world).tasksOpen = false →
      Run env o watcher (before ++ [.item task]) world = Run env o watcher before world) ∧
    (∀ tasks : List Task,
      dispatchedTasks (Run env o watcher (tasks.map WatchEvent.item) world).effects = tasks) ∧
    (∀ (before : List WatchEvent) (event : WatchEvent) (tasks : List Task),
      WatchEvent.signal ∉ before → event.isStreamError = true →
      dispatchedTasks
          (Run env o watcher (before ++ event :: tasks.map WatchEvent.item) world).effects =
        dispatchedTasks (Run env o watcher before world).effects ++ tasks) := by
  have hinit : ∀ evs : List WatchEvent, Run env o watcher evs world =
      if WatchEvent.signal ∈ evs then
        runStep env o watcher (Run env o watcher (untilSignal evs) world) .signal
      else Run env o watcher (untilSignal evs) world := by
    intro evs
    unfold Run
    exact runLoop_untilSignal env o watcher evs _ rfl
  have huntil : ∀ evs : List WatchEvent, WatchEvent.signal ∉ untilSignal evs := by
    intro evs
    induction evs with
    | nil => simp [untilSignal]
    | cons e rest ih => cases e <;> simp [untilSignal, ih]
  refine ⟨?_, ?_, ?_, ?_, ?_, ?_, ?_, ?_, ?_, ?_⟩
  · rw [hinit events]
    split
    · simp [runStep]
    · exact Run_running env o watcher _ world (huntil events)
  · intro before after hb
    have hu : ∀ rest : List WatchEvent,
        untilSignal (before ++ WatchEvent.signal :: rest) = before := by
      intro rest
      clear hinit
      induction before with
      | nil => rfl
      | cons e bs ih =>
        simp only [List.mem_cons, not_or] at hb
        have hcons : untilSignal (e :: (bs ++ WatchEvent.signal :: rest)) =
            e :: untilSignal (bs ++ WatchEvent.signal :: rest) := by
          cases e <;> first | rfl | exact absurd rfl hb.1
        rw [List.cons_append, hcons, ih hb.2]
    have h1 := hinit (before ++ WatchEvent.signal :: after)
    have h2 := hinit (before ++ [WatchEvent.signal])
    rw [if_pos (by simp), hu] at h1 h2
    refine ⟨by rw [h1, h2], ?_⟩
    rw [h1]
    simp [runStep, dispatchedTasks_append, dispatchedTasks]
  · have hw := runLoop_watch env o watcher (untilSignal events)
      { world := watcher.WatchForCompletedTask world
        tasksOpen := true
        effects := [.watchForCompletedTask, .log .info "started", .closeReady]
        returned := none } rfl (huntil events)
    have hw1 : watchCalls (Run env o watcher (untilSignal events) world).effects =
        1 + (untilSignal events).countP WatchEvent.isStreamError := by
      unfold Run; rw [hw.1]; simp [watchCalls]
    have hw2 : sleeps (Run env o watcher (untilSignal events) world).effects =
        List.replicate ((untilSignal events).countP WatchEvent.isStreamError) 3000000000 := by
      unfold Run; rw [hw.2]; simp [sleeps]
    rw [hinit events]
    split
    · have hs := runStep_watch env o watcher
        (Run env o watcher (untilSignal events) world) .signal
      rw [hs.1, hs.2, hw1, hw2]
      simp [WatchEvent.isStreamError]
    · exact ⟨hw1, hw2⟩
  · intro before event hb he
    rw [Run_snoc env o watcher before event world hb]
    have hr := Run_running env o watcher before world hb
    cases event with
    | item task => simp [WatchEvent.isStreamError] at he
    | tasksClosed => simp [WatchEvent.isStreamError] at he
    | signal => simp [WatchEvent.isStreamError] at he
    | error err =>
      refine ⟨⟨if err ≠ none then [.log .error "failed"] else [], ?_, ?_, ?_, ?_⟩, rfl, hr⟩
      · simp [runStep, timeSecond]
      · split <;> rfl
      · split <;> rfl
      · split <;> rfl
    | errorsClosed =>
      exact ⟨⟨[], by simp [runStep, timeSecond], rfl, rfl, rfl⟩, rfl, hr⟩
  · intro before task hb hopen
    rw [Run_snoc env o watcher before (.item task) world hb]
    simp [runStep, dispatchTask, hopen]
  · intro before hb
    rw [Run_snoc env o watcher before .tasksClosed world hb]
    have hr := Run_running env o watcher before world hb
    have hs := runStep_watch env o watcher (Run env o watcher before world) .tasksClosed
    refine ⟨by simpa [WatchEvent.isStreamError] using hs.1,
      by simpa [WatchEvent.isStreamError] using hs.2, ?_, ?_⟩
    · simp only [runStep, dispatchTask]
      split
      · rfl
      · rename_i hclosed
        simpa using hclosed
    · have := runStep_returned env o watcher _ WatchEvent.tasksClosed hr
      simpa using this

  · intro before middle hb hm
    have hb2 : WatchEvent.signal ∉ before ++ [WatchEvent.tasksClosed] := by
      simp [hb]
    have hclosed : (Run env o watcher (before ++ [WatchEvent.tasksClosed]) world).tasksOpen
        = false := by
      rw [Run_snoc env o watcher before .tasksClosed world hb]
      simp only [runStep, dispatchTask]
      split
      · rfl
      · rename_i hc
        simpa using hc
    have hsplit : before ++ WatchEvent.tasksClosed :: middle =
        (before ++ [WatchEvent.tasksClosed]) ++ middle := by simp
    rw [hsplit]
    unfold Run at hclosed ⊢
    rw [runLoop_append]
    exact runLoop_of_closed env o watcher _ hclosed middle hm
  · intro before task hb hclosed
    rw [Run_snoc env o watcher before (.item task) world hb]
    simp [runStep, hclosed]
  · intro tasks
    unfold Run
    rw [(runLoop_items env o watcher tasks _ rfl rfl).1]
    simp [dispatchedTasks]
  · intro before event tasks hb he
    have hsplit : before ++ event :: tasks.map WatchEvent.item =
        (before ++ [event]) ++ tasks.map WatchEvent.item := by simp
    have hr := Run_running env o watcher before world hb
    have hstate : (Run env o watcher (before ++ [event]) world).returned = none ∧
        (Run env o watcher (before ++ [event]) world).tasksOpen = true ∧
        dispatchedTasks (Run env o watcher (before ++ [event]) world).effects =
          dispatchedTasks (Run env o watcher before world).effects := by
      rw [Run_snoc env o watcher before event world hb]
      cases event with
      | item task => simp [WatchEvent.isStreamError] at he
      | tasksClosed => simp [WatchEvent.isStreamError] at he
      | signal => simp [WatchEvent.isStreamError] at he
      | error err =>
        refine ⟨hr, rfl, ?_⟩
        cases err <;> simp [runStep, dispatchedTasks_append, dispatchedTasks]
      | errorsClosed =>
        refine ⟨hr, rfl, ?_⟩
        simp [runStep, dispatchedTasks_append, dispatchedTasks]
    rw [hsplit]
    have hitems := runLoop_items env o watcher tasks
      (Run env o watcher (before ++ [event]) world) hstate.1 hstate.2.1
    have hrun : Run env o watcher ((before ++ [event]) ++ tasks.map WatchEvent.item) world =
        runLoop env o watcher (Run env o watcher (before ++ [event]) world)
          (tasks.map WatchEvent.item) := by
      unfold Run
      rw [runLoop_append]
    rw [hrun, hitems.1, hstate.2.2]

/-- C12 on the test doubles: an error, an item, the closing of the error stream, an item, a
shutdown signal and a late item give three subscriptions, two waits of three seconds, two
dispatches and a nil error; and an item offered after the task stream has closed is not
taken. -/
theorem C12_watch_loop_witness :
    (Run fakeOutboxEnv fakeOutbox fakeWatcher
      [.error (some (errorsNew "watch failed")), .item fakeTask, .errorsClosed,
        .item fakeFailedTask, .signal, .item fakeTask] fakeWorld).returned = some none ∧
    watchCalls (Run fakeOutboxEnv fakeOutbox fakeWatcher
      [.error (some (errorsNew "watch failed")), .item fakeTask, .errorsClosed,
        .item fakeFailedTask, .signal, .item fakeTask] fakeWorld).effects = 3 ∧
    sleeps (Run fakeOutboxEnv fakeOutbox fakeWatcher
      [.error (some (errorsNew "watch failed")), .item fakeTask, .errorsClosed,
        .item fakeFailedTask, .signal, .item fakeTask] fakeWorld).effects
      = [3000000000, 3000000000] ∧
    dispatchedTasks (Run fakeOutboxEnv fakeOutbox fakeWatcher
      [.error (some (errorsNew "watch failed")), .item fakeTask, .errorsClosed,
        .item fakeFailedTask, .signal, .item fakeTask] fakeWorld).effects
      = [fakeTask, fakeFailedTask] ∧
    Run fakeOutboxEnv fakeOutbox fakeWatcher [.item fakeTask, .tasksClosed, .item fakeFailedTask]
        fakeWorld =
      Run fakeOutboxEnv fakeOutbox fakeWatcher [.item fakeTask, .tasksClosed] fakeWorld ∧
    dispatchedTasks (Run fakeOutboxEnv fakeOutbox fakeWatcher
      [.errorsClosed, .item fakeTask, .item fakeFailedTask] fakeWorld).effects
      = [fakeTask, fakeFailedTask] := by
  have h := C12_watch_loop fakeOutboxEnv fakeOutbox fakeWatcher
    [.error (some (errorsNew "watch failed")), .item fakeTask, .errorsClosed,
      .item fakeFailedTask, .signal, .item fakeTask] fakeWorld
  refine ⟨?_, ?_, ?_, by decide, ?_, ?_⟩
  · rw [h.1]; decide
  · rw [h.2.2.1.1]; decide
  · rw [h.2.2.1.2]; decide
  · exact h.2.2.2.2.2.2.1 [.item fakeTask] [.item fakeFailedTask] (by decide) (by decide)
  · exact h.2.2.2.2.2.2.2.2.2 [] .errorsClosed [fakeTask, fakeFailedTask] (by decide) rfl

end Stager
